import Mathlib

/-!
Verification of the wappd codec core: a shallow embedding of the JPEG
segment codec, the EXIF/TIFF builder, the MP4 atom parser and the
mvhd timestamp patcher, translated from the Go sources
(`internal/processor/jpeg_segments.go`, `mp4_atoms.go`, `exif_tags.go`,
`video_metadata.go` and the EXIF segment builder), together with proofs
about the specified properties.

Byte buffers are `List Nat` (each entry a byte value).  Go loops are
modelled as fuel-indexed structural recursions; the fuel passed by the
entry points is always sufficient, so the exhaustion branches are
unreachable.  Go slice views are modelled by explicit `(base, start, len)`
triples where the Go code relies on slice-capacity semantics, and a Go
runtime panic (slice out of range) is modelled by the explicit outcome
`PFail.fault`.
-/

/-- Read one byte of a buffer, 0 beyond the end (Go indexing is always
guarded by bounds checks before a read, so the default is never
significant on the guarded paths). -/
def readByte (data : List Nat) (pos : Nat) : Nat := data.getD pos 0

/-- binary.BigEndian.Uint16. -/
def be16 (data : List Nat) (pos : Nat) : Nat :=
  256 * readByte data pos + readByte data (pos + 1)

/-- binary.BigEndian.Uint32. -/
def be32 (data : List Nat) (pos : Nat) : Nat :=
  16777216 * readByte data pos + 65536 * readByte data (pos + 1) +
    256 * readByte data (pos + 2) + readByte data (pos + 3)

/-- The four big-endian bytes of a 32-bit value. -/
def be32bytes (v : Nat) : List Nat :=
  [v / 16777216 % 256, v / 65536 % 256, v / 256 % 256, v % 256]

/-- The eight big-endian bytes of a 64-bit value. -/
def be64bytes (v : Nat) : List Nat :=
  [v / 72057594037927936 % 256, v / 281474976710656 % 256,
   v / 1099511627776 % 256, v / 4294967296 % 256] ++ be32bytes v

/-- Overwrite `bytes.length` bytes of `data` starting at `pos`
(binary.BigEndian.PutUint32/PutUint64 into a copy; callers guard
`pos + bytes.length ≤ data.length`). -/
def writeBytesAt (data : List Nat) (pos : Nat) (bytes : List Nat) : List Nat :=
  data.take pos ++ bytes ++ data.drop (pos + bytes.length)

/-- JPEGSegment from jpeg_segments.go. -/
structure JPEGSegment where
  Marker : Nat
  Length : Nat
  Payload : List Nat
deriving DecidableEq

/-- The inner marker-scan loop of ParseJPEGSegments
(jpeg_segments.go lines 43-45): advance while not at a marker pair,
skipping fill bytes (FF FF) and stuffed zero bytes (FF 00). -/
def scanMarker (data : List Nat) : Nat → Nat → Nat
  | pos, 0 => pos
  | pos, fuel + 1 =>
    if pos < data.length - 1 ∧
        (readByte data pos ≠ 255 ∨ readByte data (pos + 1) = 255 ∨
          readByte data (pos + 1) = 0) then
      scanMarker data (pos + 1) fuel
    else pos

/-- The outer segment loop of ParseJPEGSegments (jpeg_segments.go
lines 41-90).  Each iteration advances `pos` by at least 4, so fuel
`data.length` never runs out when entered at `pos = 2` with
`data.length ≥ 2`. -/
def parseSegLoop (data : List Nat) : Nat → Nat → Except String (List JPEGSegment)
  | _, 0 => Except.error "fuel exhausted"
  | pos, fuel + 1 =>
    if pos < data.length then
      let p := scanMarker data pos data.length
      if p ≥ data.length - 1 then Except.ok []
      else
        let marker := readByte data (p + 1)
        if marker = 217 then Except.ok []
        else if 192 ≤ marker ∧ marker ≤ 195 then Except.ok []
        else if p + 3 ≥ data.length then
          Except.error "invalid JPEG: incomplete segment length"
        else
          let length := be16 data (p + 2)
          if length < 2 then Except.error "invalid JPEG: invalid segment length"
          else if p + 2 + length > data.length then
            Except.error "invalid JPEG: segment extends beyond file"
          else
            match parseSegLoop data (p + 2 + length) fuel with
            | Except.ok segs =>
              Except.ok (⟨marker, length, (data.drop (p + 4)).take (length - 2)⟩ :: segs)
            | Except.error e => Except.error e
    else Except.ok []

/-- ParseJPEGSegments (jpeg_segments.go lines 28-93). -/
def ParseJPEGSegments (data : List Nat) : Except String (List JPEGSegment) :=
  if data.length < 2 then Except.error "invalid JPEG: file too short"
  else if readByte data 0 ≠ 255 ∨ readByte data 1 ≠ 216 then
    Except.error "invalid JPEG: missing SOI marker"
  else parseSegLoop data 2 data.length

/-- The 6-byte EXIF identifier "Exif\x00\x00". -/
def exifHeader : List Nat := [69, 120, 105, 102, 0, 0]

/-- The match condition of FindAPP1Segment: APP1 marker, at least six
payload bytes, EXIF identifier. -/
def isEXIFSeg (seg : JPEGSegment) : Bool :=
  seg.Marker == 225 && decide (6 ≤ seg.Payload.length) && seg.Payload.take 6 == exifHeader

/-- FindAPP1Segment (jpeg_segments.go lines 96-106): first matching
segment with its index, none when absent. -/
def FindAPP1Segment : List JPEGSegment → Option (Nat × JPEGSegment)
  | [] => none
  | seg :: rest =>
    if isEXIFSeg seg then some (0, seg)
    else
      match FindAPP1Segment rest with
      | some (i, s) => some (i + 1, s)
      | none => none

/-- The bytes ReassembleJPEG emits for one segment: 0xFF, the marker
byte, the big-endian uint16 length field, the payload. -/
def encodeSeg (seg : JPEGSegment) : List Nat :=
  255 :: seg.Marker % 256 :: seg.Length % 65536 / 256 :: seg.Length % 65536 % 256 :: seg.Payload

/-- Bytes of a whole segment sequence. -/
def encodeSegs (segs : List JPEGSegment) : List Nat :=
  (segs.map encodeSeg).flatten

/-- bytes.HasSuffix(imageData, {0xFF, 0xD9}). -/
def endsWithEOI (l : List Nat) : Bool :=
  l.drop (l.length - 2) == [255, 217]

/-- ReassembleJPEG (jpeg_segments.go lines 109-136): SOI, the segments,
the image data, and a trailing EOI unless the image data already ends
with one. -/
def ReassembleJPEG (segs : List JPEGSegment) (imageData : List Nat) : List Nat :=
  [255, 216] ++ encodeSegs segs ++ imageData ++
    (if endsWithEOI imageData then [] else [255, 217])

/-- The raw byte rescan of InsertEXIFSegment (jpeg_segments.go lines
172-204) that looks for the first SOF or EOI marker; `none` when the
loop exits without finding one (the boundary then stays at 2). -/
def rescanLoop (data : List Nat) : Nat → Nat → Option Nat
  | _, 0 => none
  | pos, fuel + 1 =>
    if pos < data.length then
      if pos ≥ data.length - 1 then none
      else if readByte data pos ≠ 255 then rescanLoop data (pos + 1) fuel
      else
        let marker := readByte data (pos + 1)
        if 192 ≤ marker ∧ marker ≤ 195 then some pos
        else if marker = 217 then some pos
        else if pos + 3 < data.length then
          rescanLoop data (pos + 2 + be16 data (pos + 2)) fuel
        else none
    else none

/-- The segment-list edit of InsertEXIFSegment: replace the first EXIF
APP1 segment in place, or prepend the new segment. -/
def insertAPP1 (segs : List JPEGSegment) (newSeg : JPEGSegment) : List JPEGSegment :=
  match FindAPP1Segment segs with
  | some (i, _) => segs.set i newSeg
  | none => newSeg :: segs

/-- InsertEXIFSegment (jpeg_segments.go lines 139-211). -/
def InsertEXIFSegment (data : List Nat) (exifPayload : List Nat) :
    Except String (List Nat) :=
  match ParseJPEGSegments data with
  | Except.error e => Except.error ("failed to parse JPEG: " ++ e)
  | Except.ok segments =>
    let newAPP1 : JPEGSegment := ⟨225, (exifPayload.length + 2) % 65536, exifPayload⟩
    let segmentsEnd := (rescanLoop data 2 (data.length + 1)).getD 2
    Except.ok (ReassembleJPEG (insertAPP1 segments newAPP1) (data.drop segmentsEnd))

/-- MP4 Atom from mp4_atoms.go: size, 4-byte type code, body bytes,
children (empty unless the type is a recognized container). -/
inductive Atom where
  | mk (size : Nat) (typ : List Nat) (dat : List Nat) (children : List Atom)

/-- Size field of an atom. -/
def Atom.Size : Atom → Nat
  | .mk s _ _ _ => s

/-- Type code of an atom (named `Type` in the Go source; `Type` is a
Lean keyword). -/
def Atom.Typ : Atom → List Nat
  | .mk _ t _ _ => t

/-- Body bytes of an atom. -/
def Atom.Data : Atom → List Nat
  | .mk _ _ d _ => d

/-- Children of an atom. -/
def Atom.Children : Atom → List Atom
  | .mk _ _ _ c => c

/-- isContainerAtom (mp4_atoms.go lines 89-100): moov, trak, mdia,
minf, stbl, edts, udta. -/
def isContainerAtom (t : List Nat) : Bool :=
  t == [109, 111, 111, 118] || t == [116, 114, 97, 107] ||
  t == [109, 100, 105, 97] || t == [109, 105, 110, 102] ||
  t == [115, 116, 98, 108] || t == [101, 100, 116, 115] ||
  t == [117, 100, 116, 97]

/-- The uint32 subtraction `size - 8` of `make([]byte, size-8)`: for a
declared size below 8 the Go uint32 arithmetic wraps around. -/
def u32sub8 (size : Nat) : Nat := (size + 4294967288) % 4294967296

/-- parseChildAtoms (mp4_atoms.go lines 103-154), fuel-indexed.  A
declared child size beyond the remaining body silently stops the loop;
an extended-size child (size 1) aborts with an error; errors from a
grandchild parse only clear that child's children list. -/
def parseChildLoop : Nat → List Nat → Nat → Except String (List Atom)
  | 0, _, _ => Except.error "fuel exhausted"
  | fuel + 1, data, pos =>
    if pos < data.length then
      if pos + 8 > data.length then Except.ok []
      else
        let size0 := be32 data pos
        let atomType := (data.drop (pos + 4)).take 4
        if size0 = 1 then Except.error "extended size atoms not yet supported in children"
        else
          let size := if size0 = 0 then data.length - pos else size0
          if size > data.length - pos then Except.ok []
          else
            let atomData := if size > 8 then (data.drop (pos + 8)).take (size - 8)
                            else List.replicate (u32sub8 size) 0
            let children :=
              if isContainerAtom atomType ∧ 0 < atomData.length then
                match parseChildLoop fuel atomData 0 with
                | Except.ok cs => cs
                | Except.error _ => []
              else []
            match parseChildLoop fuel data (pos + size) with
            | Except.ok rest => Except.ok (Atom.mk size atomType atomData children :: rest)
            | Except.error e => Except.error e
    else Except.ok []

/-- The top-level loop of ParseMP4Atoms (mp4_atoms.go lines 31-83),
fuel-indexed.  `isFirst` tracks whether any atom has been collected yet
(the Go code tests `len(atoms) == 0`; atoms are appended on every
surviving iteration, so this is equivalent). -/
def parseAtomsLoop : Nat → List Nat → Nat → Bool → Except String (List Atom)
  | 0, _, _, _ => Except.error "fuel exhausted"
  | fuel + 1, data, pos, isFirst =>
    if pos < data.length then
      if pos + 8 > data.length then
        if isFirst then
          Except.error ("data too short: need at least 8 bytes for atom header, got " ++
            toString data.length)
        else Except.ok []
      else
        let size0 := be32 data pos
        let atomType := (data.drop (pos + 4)).take 4
        if size0 = 1 then
          if pos + 16 > data.length then
            Except.error "invalid atom: extended size extends beyond file"
          else Except.error "extended size atoms not yet supported"
        else
          let size := if size0 = 0 then data.length - pos else size0
          if size > data.length - pos then
            Except.error ("invalid atom: size " ++ toString size ++ " extends beyond file")
          else
            let atomData := if size > 8 then (data.drop (pos + 8)).take (size - 8)
                            else List.replicate (u32sub8 size) 0
            let children :=
              if isContainerAtom atomType ∧ 0 < atomData.length then
                match parseChildLoop fuel atomData 0 with
                | Except.ok cs => cs
                | Except.error _ => []
              else []
            match parseAtomsLoop fuel data (pos + size) false with
            | Except.ok rest => Except.ok (Atom.mk size atomType atomData children :: rest)
            | Except.error e => Except.error e
    else Except.ok []

/-- Fuel budget for the atom parsers; every iteration of every loop
advances its position by at least 2 bytes of its buffer, so this bound
is never reached. -/
def mp4Fuel (data : List Nat) : Nat := 2 * data.length + 16

/-- ParseMP4Atoms (mp4_atoms.go lines 23-86). -/
def ParseMP4Atoms (data : List Nat) : Except String (List Atom) :=
  if data.length = 0 then Except.error "empty data"
  else parseAtomsLoop (mp4Fuel data) data 0 true

/-- FindAtom (mp4_atoms.go lines 157-164): first level only. -/
def FindAtom : List Atom → List Nat → Option Atom
  | [], _ => none
  | a :: rest, t => if a.Typ = t then some a else FindAtom rest t

/-- FindAtomRecursive (mp4_atoms.go lines 167-177), fuel-indexed on the
nesting depth (pre-order, the atom itself included). -/
def findAtomRecAux : Nat → Atom → List Nat → Option Atom
  | 0, _, _ => none
  | fuel + 1, a, t =>
    if a.Typ = t then some a
    else a.Children.findSome? (fun c => findAtomRecAux fuel c t)

/-- Unix-epoch to QuickTime-epoch conversion, mp4_atoms.go lines
180-182: int64 addition of 2082844800 then truncation to uint32. -/
def UnixToQuickTime (unixTime : Int) : Nat :=
  ((unixTime + 2082844800) % 4294967296).toNat

/-- QuickTime-epoch to Unix-epoch conversion, mp4_atoms.go lines
185-187. -/
def QuickTimeToUnix (qtTime : Nat) : Int :=
  (qtTime : Int) - 2082844800

/-- Failure outcomes of the patch path: a returned Go error, or an
uncatchable runtime fault (slice out of range). -/
inductive PFail where
  | gerr (msg : String)
  | fault
deriving DecidableEq

/-- Four type-code bytes rendered as a string for error messages. -/
def strOfBytes (bs : List Nat) : String :=
  String.mk (bs.map Char.ofNat)

/-- findAtomInChildren (video_metadata.go lines 160-193) over the slice
view `base[start ... start+len]`.  The Go code slices
`data[pos+8 : pos+int(size)]` without a bounds check: the slice
operation panics when `pos+size` exceeds the view's capacity
`base.length - start`, modelled by `PFail.fault`; a fault from a nested
search propagates, while an ordinary not-found error lets the scan
continue. -/
def findChildAux : Nat → List Nat → Nat → Nat → List Nat → Nat → Except PFail Nat
  | 0, _, _, _, _, _ => Except.error PFail.fault
  | fuel + 1, base, start, len, ty, pos =>
    if pos < len then
      if pos + 8 > len then
        Except.error (PFail.gerr ("atom " ++ strOfBytes ty ++ " not found in children"))
      else
        let size := be32 base (start + pos)
        let cur := (base.drop (start + pos + 4)).take 4
        if cur = ty then Except.ok pos
        else if size = 0 then
          Except.error (PFail.gerr ("atom " ++ strOfBytes ty ++ " not found in children"))
        else if size = 1 then Except.error (PFail.gerr "extended size atoms not supported")
        else if isContainerAtom cur ∧ size > 8 then
          if start + pos + size > base.length then Except.error PFail.fault
          else
            match findChildAux fuel base (start + pos + 8) (size - 8) ty 0 with
            | Except.ok childPos => Except.ok (pos + 8 + childPos)
            | Except.error PFail.fault => Except.error PFail.fault
            | Except.error (PFail.gerr _) => findChildAux fuel base start len ty (pos + size)
        else findChildAux fuel base start len ty (pos + size)
    else Except.error (PFail.gerr ("atom " ++ strOfBytes ty ++ " not found in children"))

/-- The scan loop of findAtomPosition (video_metadata.go lines
124-157); the file buffer's capacity is taken to be its length. -/
def findPosAux : Nat → List Nat → List Nat → Nat → Except PFail Nat
  | 0, _, _, _ => Except.error PFail.fault
  | fuel + 1, data, ty, pos =>
    if pos < data.length then
      if pos + 8 > data.length then
        Except.error (PFail.gerr ("atom " ++ strOfBytes ty ++ " not found"))
      else
        let size := be32 data pos
        let cur := (data.drop (pos + 4)).take 4
        if cur = ty then Except.ok pos
        else if size = 0 then
          Except.error (PFail.gerr ("atom " ++ strOfBytes ty ++ " not found"))
        else if size = 1 then Except.error (PFail.gerr "extended size atoms not supported")
        else if isContainerAtom cur ∧ size > 8 then
          if pos + size > data.length then Except.error PFail.fault
          else
            match findChildAux fuel data (pos + 8) (size - 8) ty 0 with
            | Except.ok childPos => Except.ok (pos + 8 + childPos)
            | Except.error PFail.fault => Except.error PFail.fault
            | Except.error (PFail.gerr _) => findPosAux fuel data ty (pos + size)
        else findPosAux fuel data ty (pos + size)
    else Except.error (PFail.gerr ("atom " ++ strOfBytes ty ++ " not found"))

/-- findAtomPosition (video_metadata.go lines 124-157). -/
def findAtomPosition (data : List Nat) (ty : List Nat) : Except PFail Nat :=
  findPosAux (mp4Fuel data) data ty 0

/-- The type codes used by the patcher. -/
def ftypT : List Nat := [102, 116, 121, 112]

/-- "moov" as bytes. -/
def moovT : List Nat := [109, 111, 111, 118]

/-- "mvhd" as bytes. -/
def mvhdT : List Nat := [109, 118, 104, 100]

/-- updateMvhdCreationTime (video_metadata.go lines 68-121).  The
version-0 bounds check only covers the creation-time field
(`mvhdPos+16 ≤ len`); the modification-time write reaches
`mvhdPos+20`, so a file ending inside that field panics — modelled by
`PFail.fault` (likewise version 1 with `mvhdPos+28`). -/
def updateMvhdCreationTime (data : List Nat) (mvhdAtom : Atom) (unixTime : Int) :
    Except PFail (List Nat) :=
  match findAtomPosition data mvhdT with
  | Except.error PFail.fault => Except.error PFail.fault
  | Except.error (PFail.gerr m) =>
    Except.error (PFail.gerr ("failed to find mvhd position: " ++ m))
  | Except.ok mvhdPos =>
    if mvhdAtom.Data.length < 4 then Except.error (PFail.gerr "mvhd atom data too short")
    else
      let version := readByte mvhdAtom.Data 0
      let qtTime := UnixToQuickTime unixTime
      if version = 0 then
        if mvhdPos + 8 + 4 + 4 > data.length then
          Except.error (PFail.gerr "mvhd atom extends beyond file")
        else if mvhdPos + 20 > data.length then Except.error PFail.fault
        else Except.ok (writeBytesAt (writeBytesAt data (mvhdPos + 12) (be32bytes qtTime))
          (mvhdPos + 16) (be32bytes qtTime))
      else if version = 1 then
        if mvhdPos + 8 + 4 + 8 > data.length then
          Except.error (PFail.gerr "mvhd atom extends beyond file")
        else if mvhdPos + 28 > data.length then Except.error PFail.fault
        else Except.ok (writeBytesAt (writeBytesAt data (mvhdPos + 12) (be64bytes qtTime))
          (mvhdPos + 20) (be64bytes qtTime))
      else Except.error (PFail.gerr ("unsupported mvhd version: " ++ toString version))

/-- The in-memory core of UpdateVideoMetadata (video_metadata.go lines
11-65) with the file I/O stripped away: ftyp check, atom parse, moov
and mvhd lookup, then the mvhd patch on a copy of the buffer. -/
def updateVideoData (data : List Nat) (unixTime : Int) : Except PFail (List Nat) :=
  if data.length < 8 then
    Except.error (PFail.gerr "file too short to be a valid MP4/MOV/3GP")
  else if (data.drop 4).take 4 ≠ ftypT then
    Except.error (PFail.gerr "file does not appear to be a valid MP4/MOV/3GP (missing ftyp atom)")
  else
    match ParseMP4Atoms data with
    | Except.error e => Except.error (PFail.gerr ("failed to parse MP4 atoms: " ++ e))
    | Except.ok atoms =>
      match FindAtom atoms moovT with
      | none => Except.error (PFail.gerr "moov atom not found")
      | some moovAtom =>
        match findAtomRecAux (mp4Fuel data) moovAtom mvhdT with
        | none => Except.error (PFail.gerr "mvhd atom not found in moov")
        | some mvhdAtom =>
          match updateMvhdCreationTime data mvhdAtom unixTime with
          | Except.error PFail.fault => Except.error PFail.fault
          | Except.error (PFail.gerr m) =>
            Except.error (PFail.gerr ("failed to update mvhd: " ++ m))
          | Except.ok newData => Except.ok newData

/-- Calendar timestamp (the collaborator resolves time zones to UTC
before the codec core runs). -/
structure DateTime where
  year : Nat
  month : Nat
  day : Nat
  hour : Nat
  minute : Nat
  second : Nat

/-- Decimal digit characters of `n`, most significant first,
fuel-indexed (`n + 1` is always enough fuel). -/
def digitsAux : Nat → Nat → List Nat
  | 0, _ => []
  | fuel + 1, n => if n < 10 then [48 + n] else digitsAux fuel (n / 10) ++ [48 + n % 10]

/-- Decimal digit characters of a number. -/
def decimalDigits (n : Nat) : List Nat := digitsAux (n + 1) n

/-- Zero-padded decimal rendering of width `w` (numbers wider than `w`
print in full, as Go's time formatting does). -/
def padNum (w n : Nat) : List Nat :=
  List.replicate (w - (decimalDigits n).length) 48 ++ decimalDigits n

/-- FormatDateTimeOriginal (exif_tags.go lines 46-48):
"YYYY:MM:DD HH:MM:SS" plus one zero byte. -/
def FormatDateTimeOriginal (dt : DateTime) : List Nat :=
  padNum 4 dt.year ++ [58] ++ padNum 2 dt.month ++ [58] ++ padNum 2 dt.day ++ [32] ++
    padNum 2 dt.hour ++ [58] ++ padNum 2 dt.minute ++ [58] ++ padNum 2 dt.second ++ [0]

/-- binary.ByteOrder as used by the builder. -/
inductive ByteOrder where
  | little
  | big
deriving DecidableEq

/-- PutUint16 in the chosen byte order (the argument is truncated to 16
bits, as by Go's uint16 conversion at each call site). -/
def putU16 : ByteOrder → Nat → List Nat
  | .little, v => [v % 256, v / 256 % 256]
  | .big, v => [v / 256 % 256, v % 256]

/-- PutUint32 in the chosen byte order. -/
def putU32 : ByteOrder → Nat → List Nat
  | .little, v => [v % 256, v / 256 % 256, v / 65536 % 256, v / 16777216 % 256]
  | .big, v => [v / 16777216 % 256, v / 65536 % 256, v / 256 % 256, v % 256]

/-- TagEntry (exif_tags.go lines 27-32). -/
structure TagEntry where
  TagID : Nat
  TagType : Nat
  Count : Nat
  Value : Nat
deriving DecidableEq

/-- CreateTagEntry (exif_tags.go lines 35-42): a fixed 12-byte record. -/
def CreateTagEntry (tagID tagType count valueOrOffset : Nat) (bo : ByteOrder) : List Nat :=
  putU16 bo tagID ++ putU16 bo tagType ++ putU32 bo count ++ putU32 bo valueOrOffset

/-- CreateIFD (exif_tags.go lines 52-70): entry count, the 12-byte
entries, the next-IFD offset. -/
def CreateIFD (entries : List TagEntry) (nextIFDOffset : Nat) (bo : ByteOrder) : List Nat :=
  putU16 bo entries.length ++
    (entries.map (fun e => CreateTagEntry e.TagID e.TagType e.Count e.Value bo)).flatten ++
    putU32 bo nextIFDOffset

/-- CreateTIFFHeader (part of the EXIF builder): byte-order marker,
magic 42, IFD0 offset. -/
def CreateTIFFHeader (bo : ByteOrder) (ifdOffset : Nat) : List Nat :=
  match bo with
  | .little => [73, 73] ++ putU16 .little 42 ++ putU32 .little ifdOffset
  | .big => [77, 77] ++ putU16 .big 42 ++ putU32 .big ifdOffset

/-- ifd0Offset of CreateEXIFSegment: right after the 8-byte TIFF
header. -/
def ifd0Offset : Nat := 8

/-- exifIFDOffset of CreateEXIFSegment: after IFD0 with its 4 entries
(2 + 4*12 + 4 bytes). -/
def exifIFDOffset : Nat := ifd0Offset + 2 + 4 * 12 + 4

/-- dateTimeOffset of CreateEXIFSegment: after the Exif IFD with its 1
entry (2 + 1*12 + 4 bytes). -/
def dateTimeOffset : Nat := exifIFDOffset + 2 + 1 * 12 + 4

/-- CreateEXIFSegment (EXIF builder lines 10-73): EXIF identifier,
little-endian TIFF header, IFD0 (ImageWidth 0, ImageLength 0,
Orientation 1, Exif-IFD pointer), Exif IFD (DateTimeOriginal), then the
date-time string. -/
def CreateEXIFSegment (dt : DateTime) : List Nat :=
  let dateTimeBytes := FormatDateTimeOriginal dt
  let ifd0Entries : List TagEntry :=
    [⟨256, 4, 1, 0⟩, ⟨257, 4, 1, 0⟩, ⟨274, 3, 1, 1⟩, ⟨34665, 4, 1, exifIFDOffset⟩]
  let exifIFDEntries : List TagEntry := [⟨36867, 2, dateTimeBytes.length, dateTimeOffset⟩]
  exifHeader ++ CreateTIFFHeader .little ifd0Offset ++
    CreateIFD ifd0Entries 0 .little ++ CreateIFD exifIFDEntries 0 .little ++ dateTimeBytes

/-! ## Concrete buffers used by the claims -/

/-- C1 input: a minimal file with an ftyp atom, then a moov atom whose
single child is a version-0 mvhd atom with 12 body bytes. -/
def c1buf : List Nat :=
  [0, 0, 0, 16, 102, 116, 121, 112, 105, 115, 111, 109, 0, 0, 2, 0] ++
  [0, 0, 0, 28, 109, 111, 111, 118] ++
  [0, 0, 0, 20, 109, 118, 104, 100] ++
  [0, 1, 2, 3, 10, 11, 12, 13, 20, 21, 22, 23]

/-- C1 expected output: the same bytes with the two 32-bit timestamp
fields (absolute offsets 36-39 and 40-43) set to 3820348800. -/
def c1out : List Nat :=
  [0, 0, 0, 16, 102, 116, 121, 112, 105, 115, 111, 109, 0, 0, 2, 0] ++
  [0, 0, 0, 28, 109, 111, 111, 118] ++
  [0, 0, 0, 20, 109, 118, 104, 100] ++
  [0, 1, 2, 3, 227, 181, 229, 128, 227, 181, 229, 128]

/-- C2 input from the spec: SOI, an APP1 EXIF segment of declared
length 0x0010, then a bare SOF0 marker. -/
def c2input : List Nat :=
  [255, 216, 255, 225, 0, 16, 69, 120, 105, 102, 0, 0,
   73, 73, 42, 0, 8, 0, 0, 0, 255, 192]

/-- A file whose moov atom contains a udta container holding a child
whose declared size (0xFFFFFF00) exceeds the bytes remaining in the
whole buffer, followed by a well-formed mvhd: the tree parse recovers,
but the positional rescan of the patcher slices past the buffer. -/
def c4buf : List Nat :=
  [0, 0, 0, 16, 102, 116, 121, 112, 105, 115, 111, 109, 0, 0, 2, 0] ++
  [0, 0, 0, 44, 109, 111, 111, 118] ++
  [0, 0, 0, 16, 117, 100, 116, 97] ++ [255, 255, 255, 0, 116, 114, 97, 107] ++
  [0, 0, 0, 20, 109, 118, 104, 100] ++ [0, 0, 0, 0, 0, 0, 0, 0, 0, 0, 0, 0]

/-- An 8-byte buffer whose single atom declares size 5 (strictly
between 2 and 7, smaller than the 8-byte header). -/
def c4small : List Nat := [0, 0, 0, 5, 102, 114, 101, 101]

/-- An 8-byte buffer whose first atom declares the extended size 1. -/
def c8buf : List Nat := [0, 0, 0, 1, 102, 116, 121, 112]

/-- A moov atom whose body holds a well-formed 8-byte free child
followed by a child declaring the unsupported extended size 1. -/
def c9buf : List Nat :=
  [0, 0, 0, 24, 109, 111, 111, 118] ++
  [0, 0, 0, 8, 102, 114, 101, 101] ++ [0, 0, 0, 1, 97, 98, 99, 100]

/-- The body bytes of the moov atom of `c9buf`. -/
def c9body : List Nat :=
  [0, 0, 0, 8, 102, 114, 101, 101, 0, 0, 0, 1, 97, 98, 99, 100]

/-- A moov atom whose body holds the same free child followed by a
child whose declared size 99 exceeds the remaining body. -/
def c9buf2 : List Nat :=
  [0, 0, 0, 24, 109, 111, 111, 118] ++
  [0, 0, 0, 8, 102, 114, 101, 101] ++ [0, 0, 0, 99, 97, 98, 99, 100]

/-- The body bytes of the moov atom of `c9buf2`. -/
def c9body2 : List Nat :=
  [0, 0, 0, 8, 102, 114, 101, 101, 0, 0, 0, 99, 97, 98, 99, 100]

/-- A well-formed minimal JPEG: SOI, SOF0 segment, EOI. -/
def c5data : List Nat := [255, 216, 255, 192, 0, 4, 0, 0, 255, 217]

/-- A 6-byte payload that does not start with the EXIF identifier. -/
def c5p : List Nat := [1, 2, 3, 4, 5, 6]

/-- Result of injecting `c5p` into `c5data` once. -/
def c5J1 : List Nat :=
  [255, 216, 255, 225, 0, 8, 1, 2, 3, 4, 5, 6, 255, 192, 0, 4, 0, 0, 255, 217]

/-- Result of injecting `c5p` a second time: the APP1 segment is
duplicated. -/
def c5J2 : List Nat :=
  [255, 216, 255, 225, 0, 8, 1, 2, 3, 4, 5, 6,
   255, 225, 0, 8, 1, 2, 3, 4, 5, 6, 255, 192, 0, 4, 0, 0, 255, 217]

/-- A JPEG whose only segment is an empty APP0 and which has no SOF or
EOI marker at all. -/
def c10data : List Nat := [255, 216, 255, 224, 0, 2]

/-! ## Claim theorems: concrete cases -/

/-- C1: patching the minimal version-0 `c1buf` with Unix timestamp
1737504000 writes the big-endian QuickTime value 3820348800 into the
creation-time field (absolute bytes 36-39, mvhd body offset 4) and the
modification-time field (absolute bytes 40-43, mvhd body offset 8), and
leaves every other byte unchanged; the patch is a pure function of the
input buffer, which is itself an immutable value. -/
theorem c1_mvhd_patch_writes_timestamps :
    updateVideoData c1buf 1737504000 = Except.ok c1out ∧
    UnixToQuickTime 1737504000 = 3820348800 ∧
    be32bytes 3820348800 = [227, 181, 229, 128] ∧
    c1out.take 36 = c1buf.take 36 ∧
    (c1out.drop 36).take 4 = [227, 181, 229, 128] ∧
    (c1out.drop 40).take 4 = [227, 181, 229, 128] ∧
    c1out.drop 44 = c1buf.drop 44 := by
  refine ⟨rfl, by decide, by decide, by decide, by decide, by decide, by decide⟩

/-- C2: parsing the 22-byte example yields exactly one segment — marker
0xE1, length field 0x0010, the 14-byte payload starting with the EXIF
identifier — and the trailing 0xFFC0 start-of-frame marker is not
consumed as a segment. -/
theorem c2_parse_single_exif_segment :
    ParseJPEGSegments c2input =
      Except.ok [⟨225, 16, [69, 120, 105, 102, 0, 0, 73, 73, 42, 0, 8, 0, 0, 0]⟩] := by
  rfl

/-- C3: on the representable domain (QuickTime value within 32 bits)
the two epoch conversions are mutually inverse and differ by exactly
2082844800 seconds. -/
theorem c3_quicktime_conversion_bijection (t : Int)
    (h0 : 0 ≤ t + 2082844800) (h1 : t + 2082844800 < 4294967296) :
    QuickTimeToUnix (UnixToQuickTime t) = t ∧
    (UnixToQuickTime t : Int) = t + 2082844800 := by
  unfold UnixToQuickTime QuickTimeToUnix
  omega

/-- Witness for C3 at the concrete timestamp 1737504000. -/
theorem c3_quicktime_conversion_bijection_witness :
    (0 ≤ (1737504000 : Int) + 2082844800 ∧ (1737504000 : Int) + 2082844800 < 4294967296) ∧
    (QuickTimeToUnix (UnixToQuickTime 1737504000) = 1737504000 ∧
      (UnixToQuickTime 1737504000 : Int) = 1737504000 + 2082844800) :=
  ⟨⟨by decide, by decide⟩,
    c3_quicktime_conversion_bijection 1737504000 (by decide) (by decide)⟩

/-- C4 (code defect): the parse operations are total — every input
yields an explicit ok/error outcome, including a declared atom size
strictly between 2 and 7 — but the patch operation is not: on `c4buf`
(whose moov/udta container hides a child whose declared size exceeds
the buffer) the tree parse recovers, yet `findAtomInChildren` slices
`data[pos+8 : pos+int(size)]` without a bounds check and the patch
pipeline ends in an uncatchable slice-out-of-range fault, contradicting
the claim that no operation raises uncatchable faults on malformed
input. -/
theorem c4_patch_pipeline_can_fault :
    updateVideoData c4buf 0 = Except.error PFail.fault ∧
    ParseMP4Atoms c4small =
      Except.ok [Atom.mk 5 [102, 114, 101, 101] (List.replicate 4294967293 0) []] ∧
    (∀ data : List Nat,
      (∃ atoms, ParseMP4Atoms data = Except.ok atoms) ∨
      (∃ e, ParseMP4Atoms data = Except.error e)) ∧
    (∀ data : List Nat,
      (∃ segs, ParseJPEGSegments data = Except.ok segs) ∨
      (∃ e, ParseJPEGSegments data = Except.error e)) := by
  refine ⟨rfl, rfl, fun data => ?_, fun data => ?_⟩
  · cases h : ParseMP4Atoms data with
    | ok atoms => exact Or.inl ⟨atoms, rfl⟩
    | error e => exact Or.inr ⟨e, rfl⟩
  · cases h : ParseJPEGSegments data with
    | ok segs => exact Or.inl ⟨segs, rfl⟩
    | error e => exact Or.inr ⟨e, rfl⟩

/-- C8 counterexample: a buffer whose first atom declares size 1 but
which is shorter than 16 bytes fails with the format-style error
"invalid atom: extended size extends beyond file", not with the
unsupported-feature error the claim promises for every size-1
buffer. -/
theorem c8_size1_short_buffer_is_format_error :
    ParseMP4Atoms c8buf = Except.error "invalid atom: extended size extends beyond file" ∧
    "invalid atom: extended size extends beyond file" ≠
      "extended size atoms not yet supported" := by
  exact ⟨rfl, by decide⟩

/-- C9 counterexample: in `c9buf` the moov body holds a well-formed
8-byte free child followed by a child with the unsupported extended
size 1; the child parse aborts with an error, the parent drops the
entire children list (it is empty, the earlier well-formed free child
is not returned), yet the overall parse succeeds — contradicting the
claim that the children list is truncated at the malformed child. -/
theorem c9_size1_child_drops_all_children :
    ParseMP4Atoms c9buf = Except.ok [Atom.mk 24 moovT c9body []] ∧
    parseChildLoop (mp4Fuel c9buf - 1) c9body 0 =
      Except.error "extended size atoms not yet supported in children" ∧
    [Atom.mk 24 moovT c9body []] ≠
      [Atom.mk 24 moovT c9body [Atom.mk 8 [102, 114, 101, 101] [] []]] := by
  refine ⟨rfl, rfl, ?_⟩
  intro h
  simp only [List.cons.injEq, Atom.mk.injEq, and_true] at h
  exact absurd h.2.2.2 (by simp)

/-- C5 counterexample: with the well-formed JPEG `c5data` and the
6-byte payload `c5p` (which does not begin with the EXIF identifier),
the first injection produces `c5J1`; injecting the same payload again
produces `c5J2`, which parses to TWO identical APP1 segments — a
duplicate APP1 accumulated, and the output does not contain exactly one
EXIF segment, contradicting the claim for arbitrary payloads. -/
theorem c5_nonexif_payload_accumulates_app1 :
    InsertEXIFSegment c5data c5p = Except.ok c5J1 ∧
    InsertEXIFSegment c5J1 c5p = Except.ok c5J2 ∧
    ParseJPEGSegments c5J2 =
      Except.ok [⟨225, 8, [1, 2, 3, 4, 5, 6]⟩, ⟨225, 8, [1, 2, 3, 4, 5, 6]⟩] ∧
    (2 : Nat) ≠ 1 := by
  exact ⟨rfl, rfl, rfl, by decide⟩

/-- C6 counterexample: with the empty segment sequence and image data
`[0xFF, 0xE0, 0x00, 0x02]` (which itself looks like an APP0 segment),
the reassembled file parses back to ONE segment, not to the original
empty sequence: parse is not a left inverse of reassemble for arbitrary
image data. -/
theorem c6_arbitrary_imagedata_breaks_roundtrip :
    ReassembleJPEG [] [255, 224, 0, 2] = [255, 216, 255, 224, 0, 2, 255, 217] ∧
    ParseJPEGSegments [255, 216, 255, 224, 0, 2, 255, 217] =
      Except.ok [⟨224, 2, []⟩] ∧
    ([⟨224, 2, []⟩] : List JPEGSegment) ≠ [] := by
  exact ⟨rfl, rfl, by decide⟩

/-! ## C7: EXIF payload layout -/

/-- putU16 always emits two bytes. -/
theorem putU16_length (bo : ByteOrder) (v : Nat) : (putU16 bo v).length = 2 := by
  cases bo <;> rfl

/-- putU32 always emits four bytes. -/
theorem putU32_length (bo : ByteOrder) (v : Nat) : (putU32 bo v).length = 4 := by
  cases bo <;> rfl

/-- A tag entry is a fixed 12-byte record. -/
theorem createTagEntry_length (a b c d : Nat) (bo : ByteOrder) :
    (CreateTagEntry a b c d bo).length = 12 := by
  cases bo <;> rfl

/-- A serialized IFD occupies 2 + 12*entryCount + 4 bytes. -/
theorem createIFD_length (entries : List TagEntry) (next : Nat) (bo : ByteOrder) :
    (CreateIFD entries next bo).length = 2 + 12 * entries.length + 4 := by
  induction entries with
  | nil => cases bo <;> rfl
  | cons e rest ih =>
    simp only [CreateIFD, List.map_cons, List.flatten_cons, List.length_append,
      putU16_length, putU32_length, createTagEntry_length, List.length_cons] at ih ⊢
    omega

/-- The TIFF header is 8 bytes in either byte order. -/
theorem createTIFFHeader_length (bo : ByteOrder) (off : Nat) :
    (CreateTIFFHeader bo off).length = 8 := by
  cases bo <;> rfl

/-- One step of the digit expansion for a single-digit number. -/
theorem digitsAux_single (fuel n : Nat) (hn : n < 10) (hf : 1 ≤ fuel) :
    digitsAux fuel n = [48 + n] := by
  cases fuel with
  | zero => omega
  | succ f => simp [digitsAux, hn]

/-- At most `k` digits for a number below `10 ^ k`. -/
theorem digitsAux_length_le (fuel : Nat) : ∀ n k : Nat, n < 10 ^ k → 1 ≤ k → k ≤ fuel →
    (digitsAux fuel n).length ≤ k := by
  induction fuel with
  | zero => intro n k _ _ hk; omega
  | succ f ih =>
    intro n k hn hk1 hkf
    by_cases h10 : n < 10
    · rw [digitsAux_single (f + 1) n h10 (by omega)]
      simpa using hk1
    · have hk2 : 2 ≤ k := by
        by_contra hlt
        have : k = 1 := by omega
        subst this
        simp at hn
        omega
      have hdiv : n / 10 < 10 ^ (k - 1) := by
        have : 10 ^ k = 10 ^ (k - 1) * 10 := by
          conv_lhs => rw [show k = (k - 1) + 1 by omega]
          ring
        rw [this] at hn
        omega
      have := ih (n / 10) (k - 1) hdiv (by omega) (by omega)
      simp only [digitsAux, if_neg h10, List.length_append, List.length_cons,
        List.length_nil]
      omega

/-- A number below `10 ^ k` has at most `k` decimal digit characters. -/
theorem decimalDigits_length_le (n k : Nat) (hn : n < 10 ^ k) (hk : 1 ≤ k)
    (hfk : k ≤ n + 1) : (decimalDigits n).length ≤ k :=
  digitsAux_length_le (n + 1) n k hn hk hfk

/-- A number below 100 padded to width 2 occupies exactly 2 bytes. -/
theorem padNum2_length (n : Nat) (h : n < 100) : (padNum 2 n).length = 2 := by
  have hle : (decimalDigits n).length ≤ 2 := by
    by_cases h1 : n < 10
    · have := digitsAux_single (n + 1) n h1 (by omega)
      simp [decimalDigits, this]
    · exact decimalDigits_length_le n 2 (by omega) (by omega) (by omega)
  simp only [padNum, List.length_append, List.length_replicate]
  omega

/-- A number below 10000 padded to width 4 occupies exactly 4 bytes. -/
theorem padNum4_length (n : Nat) (h : n < 10000) : (padNum 4 n).length = 4 := by
  have hle : (decimalDigits n).length ≤ 4 := by
    by_cases h1 : n < 10
    · have := digitsAux_single (n + 1) n h1 (by omega)
      simp [decimalDigits, this]
    · exact decimalDigits_length_le n 4 (by omega) (by omega) (by omega)
  simp only [padNum, List.length_append, List.length_replicate]
  omega

/-- For any in-range calendar timestamp the DateTimeOriginal string is
exactly 20 bytes: "YYYY:MM:DD HH:MM:SS" plus the zero terminator. -/
theorem formatDateTimeOriginal_length (dt : DateTime) (hy : dt.year < 10000)
    (hmo : dt.month < 100) (hd : dt.day < 100) (hh : dt.hour < 100)
    (hmi : dt.minute < 100) (hs : dt.second < 100) :
    (FormatDateTimeOriginal dt).length = 20 := by
  simp only [FormatDateTimeOriginal, List.length_append, List.length_cons,
    List.length_nil, padNum4_length dt.year hy, padNum2_length dt.month hmo,
    padNum2_length dt.day hd, padNum2_length dt.hour hh,
    padNum2_length dt.minute hmi, padNum2_length dt.second hs]

/-- C7: the EXIF payload layout.  The offsets are ifd0Offset = 8,
exifIFDOffset = 8 + (2 + 12*4 + 4) = 62 and dateTimeOffset =
62 + (2 + 12*1 + 4) = 80 (relative to the TIFF header).  For every
valid calendar timestamp the payload starts with the 6-byte EXIF
identifier, its data area (after the 86-byte fixed part: 6 identifier +
8 TIFF header + 54 IFD0 + 18 Exif IFD) is the 20-byte
"YYYY:MM:DD HH:MM:SS" string plus one zero byte, and for
2025-01-22T15:30:45Z that data area reads "2025:01:22 15:30:45\x00";
the total length 106 is at least 14 bytes. -/
theorem c7_exif_payload_layout (dt : DateTime) (hy : dt.year < 10000)
    (hmo : dt.month < 100) (hd : dt.day < 100) (hh : dt.hour < 100)
    (hmi : dt.minute < 100) (hs : dt.second < 100) :
    ifd0Offset = 8 ∧ exifIFDOffset = 62 ∧ dateTimeOffset = 80 ∧
    (CreateEXIFSegment dt).take 6 = exifHeader ∧
    (CreateEXIFSegment dt).drop 86 = FormatDateTimeOriginal dt ∧
    (FormatDateTimeOriginal dt).length = 20 ∧
    (CreateEXIFSegment dt).length = 106 ∧
    (CreateEXIFSegment ⟨2025, 1, 22, 15, 30, 45⟩).drop 86 =
      [50, 48, 50, 53, 58, 48, 49, 58, 50, 50, 32, 49, 53, 58, 51, 48, 58, 52, 53, 0] ∧
    14 ≤ (CreateEXIFSegment ⟨2025, 1, 22, 15, 30, 45⟩).length := by
  have hstrlen := formatDateTimeOriginal_length dt hy hmo hd hh hmi hs
  have hsplit : CreateEXIFSegment dt =
      (exifHeader ++ CreateTIFFHeader .little ifd0Offset ++
        CreateIFD [⟨256, 4, 1, 0⟩, ⟨257, 4, 1, 0⟩, ⟨274, 3, 1, 1⟩,
          ⟨34665, 4, 1, exifIFDOffset⟩] 0 .little ++
        CreateIFD [⟨36867, 2, (FormatDateTimeOriginal dt).length, dateTimeOffset⟩]
          0 .little) ++ FormatDateTimeOriginal dt := rfl
  have hP : (exifHeader ++ CreateTIFFHeader .little ifd0Offset ++
      CreateIFD [⟨256, 4, 1, 0⟩, ⟨257, 4, 1, 0⟩, ⟨274, 3, 1, 1⟩,
        ⟨34665, 4, 1, exifIFDOffset⟩] 0 .little ++
      CreateIFD [⟨36867, 2, (FormatDateTimeOriginal dt).length, dateTimeOffset⟩]
        0 .little).length = 86 := by
    simp [List.length_append, createTIFFHeader_length, createIFD_length, exifHeader]
  refine ⟨rfl, rfl, rfl, ?_, ?_, hstrlen, ?_, by rfl, by decide⟩
  · rw [hsplit]
    simp only [List.append_assoc]
    exact List.take_left' rfl
  · rw [hsplit]
    exact List.drop_left' hP
  · rw [hsplit, List.length_append, hP, hstrlen]

/-- Witness for C7 at the timestamp 2025-01-22T15:30:45Z. -/
theorem c7_exif_payload_layout_witness :
    ((2025 : Nat) < 10000 ∧ (1 : Nat) < 100 ∧ (22 : Nat) < 100 ∧ (15 : Nat) < 100 ∧
      (30 : Nat) < 100 ∧ (45 : Nat) < 100) ∧
    ((CreateEXIFSegment ⟨2025, 1, 22, 15, 30, 45⟩).take 6 = exifHeader ∧
      (CreateEXIFSegment ⟨2025, 1, 22, 15, 30, 45⟩).length = 106) := by
  have h := c7_exif_payload_layout ⟨2025, 1, 22, 15, 30, 45⟩ (by decide) (by decide)
    (by decide) (by decide) (by decide) (by decide)
  exact ⟨⟨by decide, by decide, by decide, by decide, by decide, by decide⟩,
    h.2.2.2.1, h.2.2.2.2.2.2.1⟩

/-! ## C10: rescan missing both SOF and EOI -/

/-- C10: when the raw byte rescan finds neither a start-of-frame nor an
end-of-image marker, the image-data boundary keeps its initial value 2,
the insertion still succeeds, and the reassembled output re-emits the
edited segment list followed by everything after SOI as pass-through
image data — so the original segment bytes appear a second time inside
it.  Concretely, for the SOF-less, EOI-less `c10data` the bytes
`FF E0 00 02` of its single parsed segment occur both re-emitted (at
offsets 12-15) and inside the pass-through data (at offsets 16-19). -/
theorem c10_rescan_miss_duplicates_segments (data p : List Nat)
    (segs : List JPEGSegment)
    (hparse : ParseJPEGSegments data = Except.ok segs)
    (hscan : rescanLoop data 2 (data.length + 1) = none) :
    InsertEXIFSegment data p =
      Except.ok (ReassembleJPEG (insertAPP1 segs ⟨225, (p.length + 2) % 65536, p⟩)
        (data.drop 2)) ∧
    InsertEXIFSegment c10data exifHeader =
      Except.ok [255, 216, 255, 225, 0, 8, 69, 120, 105, 102, 0, 0,
        255, 224, 0, 2, 255, 224, 0, 2, 255, 217] ∧
    ([255, 216, 255, 225, 0, 8, 69, 120, 105, 102, 0, 0,
        255, 224, 0, 2, 255, 224, 0, 2, 255, 217].drop 12).take 4 = [255, 224, 0, 2] ∧
    ([255, 216, 255, 225, 0, 8, 69, 120, 105, 102, 0, 0,
        255, 224, 0, 2, 255, 224, 0, 2, 255, 217].drop 16).take 4 = [255, 224, 0, 2] := by
  refine ⟨?_, rfl, by decide, by decide⟩
  simp only [InsertEXIFSegment, hparse, hscan, Option.getD_none]

/-- Witness for C10 on the concrete SOF-less buffer. -/
theorem c10_rescan_miss_duplicates_segments_witness :
    (ParseJPEGSegments c10data = Except.ok [⟨224, 2, []⟩] ∧
      rescanLoop c10data 2 (c10data.length + 1) = none) ∧
    InsertEXIFSegment c10data exifHeader =
      Except.ok (ReassembleJPEG
        (insertAPP1 [⟨224, 2, []⟩] ⟨225, (exifHeader.length + 2) % 65536, exifHeader⟩)
        (c10data.drop 2)) :=
  ⟨⟨rfl, rfl⟩,
    (c10_rescan_miss_duplicates_segments c10data exifHeader [⟨224, 2, []⟩] rfl rfl).1⟩

/-! ## One-step unfolding lemmas for the fuel-indexed MP4 loops.
The fuel argument is kept abstract so each lemma unfolds exactly one
iteration. -/

/-- Loop exit of the top-level atom loop. -/
theorem parseAtomsLoop_exit (fuel : Nat) (data : List Nat) (pos : Nat) (isFirst : Bool)
    (h : ¬ pos < data.length) :
    parseAtomsLoop (fuel + 1) data pos isFirst = Except.ok [] := by
  simp only [parseAtomsLoop]
  rw [if_neg h]

/-- Top-level loop, short-header branch. -/
theorem parseAtomsLoop_short (fuel : Nat) (data : List Nat) (pos : Nat) (isFirst : Bool)
    (h : pos < data.length) (h8 : pos + 8 > data.length) :
    parseAtomsLoop (fuel + 1) data pos isFirst =
      if isFirst then
        Except.error ("data too short: need at least 8 bytes for atom header, got " ++
          toString data.length)
      else Except.ok [] := by
  simp only [parseAtomsLoop]
  rw [if_pos h, if_pos h8]

/-- Top-level loop, extended-size atom with fewer than 16 bytes left. -/
theorem parseAtomsLoop_ext_short (fuel : Nat) (data : List Nat) (pos : Nat) (isFirst : Bool)
    (h : pos < data.length) (h8 : ¬ pos + 8 > data.length)
    (h1 : be32 data pos = 1) (h16 : pos + 16 > data.length) :
    parseAtomsLoop (fuel + 1) data pos isFirst =
      Except.error "invalid atom: extended size extends beyond file" := by
  simp only [parseAtomsLoop]
  rw [if_pos h, if_neg h8, if_pos h1, if_pos h16]

/-- Top-level loop, extended-size atom with 16 bytes available. -/
theorem parseAtomsLoop_ext (fuel : Nat) (data : List Nat) (pos : Nat) (isFirst : Bool)
    (h : pos < data.length) (h8 : ¬ pos + 8 > data.length)
    (h1 : be32 data pos = 1) (h16 : ¬ pos + 16 > data.length) :
    parseAtomsLoop (fuel + 1) data pos isFirst =
      Except.error "extended size atoms not yet supported" := by
  simp only [parseAtomsLoop]
  rw [if_pos h, if_neg h8, if_pos h1, if_neg h16]

/-- Top-level loop, declared size beyond the remaining buffer. -/
theorem parseAtomsLoop_oversize (fuel : Nat) (data : List Nat) (pos : Nat) (isFirst : Bool)
    (h : pos < data.length) (h8 : ¬ pos + 8 > data.length)
    (h1 : be32 data pos ≠ 1) (h0 : be32 data pos ≠ 0)
    (hov : be32 data pos > data.length - pos) :
    parseAtomsLoop (fuel + 1) data pos isFirst =
      Except.error ("invalid atom: size " ++ toString (be32 data pos) ++
        " extends beyond file") := by
  simp only [parseAtomsLoop]
  rw [if_pos h, if_neg h8, if_neg h1, if_neg h0, if_pos hov]

/-- Top-level loop, one successful iteration. -/
theorem parseAtomsLoop_step (fuel : Nat) (data : List Nat) (pos : Nat) (isFirst : Bool)
    (h : pos < data.length) (h8 : ¬ pos + 8 > data.length)
    (h1 : be32 data pos ≠ 1) (h0 : be32 data pos ≠ 0)
    (hov : ¬ be32 data pos > data.length - pos) :
    parseAtomsLoop (fuel + 1) data pos isFirst =
      (let size := be32 data pos
      let atomType := (data.drop (pos + 4)).take 4
      let atomData := if size > 8 then (data.drop (pos + 8)).take (size - 8)
                      else List.replicate (u32sub8 size) 0
      let children :=
        if isContainerAtom atomType ∧ 0 < atomData.length then
          match parseChildLoop fuel atomData 0 with
          | Except.ok cs => cs
          | Except.error _ => []
        else []
      match parseAtomsLoop fuel data (pos + size) false with
      | Except.ok rest => Except.ok (Atom.mk size atomType atomData children :: rest)
      | Except.error e => Except.error e) := by
  simp only [parseAtomsLoop]
  rw [if_pos h, if_neg h8, if_neg h1, if_neg h0, if_neg hov]

/-- Loop exit of the child atom loop. -/
theorem parseChildLoop_exit (fuel : Nat) (data : List Nat) (pos : Nat)
    (h : ¬ pos < data.length) :
    parseChildLoop (fuel + 1) data pos = Except.ok [] := by
  simp only [parseChildLoop]
  rw [if_neg h]

/-- Child loop, short-header stop. -/
theorem parseChildLoop_short (fuel : Nat) (data : List Nat) (pos : Nat)
    (h : pos < data.length) (h8 : pos + 8 > data.length) :
    parseChildLoop (fuel + 1) data pos = Except.ok [] := by
  simp only [parseChildLoop]
  rw [if_pos h, if_pos h8]

/-- Child loop, extended-size child aborts the whole child parse. -/
theorem parseChildLoop_ext (fuel : Nat) (data : List Nat) (pos : Nat)
    (h : pos < data.length) (h8 : ¬ pos + 8 > data.length)
    (h1 : be32 data pos = 1) :
    parseChildLoop (fuel + 1) data pos =
      Except.error "extended size atoms not yet supported in children" := by
  simp only [parseChildLoop]
  rw [if_pos h, if_neg h8, if_pos h1]

/-- Child loop, declared child size beyond the remaining body silently
stops the loop. -/
theorem parseChildLoop_oversize (fuel : Nat) (data : List Nat) (pos : Nat)
    (h : pos < data.length) (h8 : ¬ pos + 8 > data.length)
    (h1 : be32 data pos ≠ 1) (h0 : be32 data pos ≠ 0)
    (hov : be32 data pos > data.length - pos) :
    parseChildLoop (fuel + 1) data pos = Except.ok [] := by
  simp only [parseChildLoop]
  rw [if_pos h, if_neg h8, if_neg h1, if_neg h0, if_pos hov]

/-- Child loop, one successful iteration. -/
theorem parseChildLoop_step (fuel : Nat) (data : List Nat) (pos : Nat)
    (h : pos < data.length) (h8 : ¬ pos + 8 > data.length)
    (h1 : be32 data pos ≠ 1) (h0 : be32 data pos ≠ 0)
    (hov : ¬ be32 data pos > data.length - pos) :
    parseChildLoop (fuel + 1) data pos =
      (let size := be32 data pos
      let atomType := (data.drop (pos + 4)).take 4
      let atomData := if size > 8 then (data.drop (pos + 8)).take (size - 8)
                      else List.replicate (u32sub8 size) 0
      let children :=
        if isContainerAtom atomType ∧ 0 < atomData.length then
          match parseChildLoop fuel atomData 0 with
          | Except.ok cs => cs
          | Except.error _ => []
        else []
      match parseChildLoop fuel data (pos + size) with
      | Except.ok rest => Except.ok (Atom.mk size atomType atomData children :: rest)
      | Except.error e => Except.error e) := by
  simp only [parseChildLoop]
  rw [if_pos h, if_neg h8, if_neg h1, if_neg h0, if_neg hov]

/-- C8 (amended): for buffers of at least 8 bytes, a first atom whose
declared size is at least 2 and exceeds the buffer length fails with
the FormatError "invalid atom: size N extends beyond file"; a declared
size of 1 fails with the UnsupportedFeature message only when at least
16 bytes are available for the 64-bit extension — with fewer than 16
bytes it fails with the FormatError "invalid atom: extended size
extends beyond file".  In all three cases the whole parse fails and no
partial atom list is returned. -/
theorem c8_first_atom_size_errors (data : List Nat) (h8 : 8 ≤ data.length) :
    (2 ≤ be32 data 0 → data.length < be32 data 0 →
      ParseMP4Atoms data =
        Except.error ("invalid atom: size " ++ toString (be32 data 0) ++
          " extends beyond file")) ∧
    (be32 data 0 = 1 → 16 ≤ data.length →
      ParseMP4Atoms data = Except.error "extended size atoms not yet supported") ∧
    (be32 data 0 = 1 → data.length < 16 →
      ParseMP4Atoms data = Except.error "invalid atom: extended size extends beyond file") := by
  have hfuel : mp4Fuel data = (2 * data.length + 15) + 1 := by
    simp only [mp4Fuel]
  refine ⟨?_, ?_, ?_⟩
  · intro h2 hlen
    rw [ParseMP4Atoms, if_neg (show ¬ data.length = 0 by omega), hfuel,
      parseAtomsLoop_oversize _ _ _ _ (by omega) (by omega) (by omega) (by omega) (by omega)]
  · intro h1 hlen
    rw [ParseMP4Atoms, if_neg (show ¬ data.length = 0 by omega), hfuel,
      parseAtomsLoop_ext _ _ _ _ (by omega) (by omega) h1 (by omega)]
  · intro h1 hlen
    rw [ParseMP4Atoms, if_neg (show ¬ data.length = 0 by omega), hfuel,
      parseAtomsLoop_ext_short _ _ _ _ (by omega) (by omega) h1 (by omega)]

/-- Witness for the amended C8 on a concrete 8-byte buffer. -/
theorem c8_first_atom_size_errors_witness :
    ((8 : Nat) ≤ c8buf.length ∧ be32 c8buf 0 = 1 ∧ c8buf.length < 16) ∧
    ParseMP4Atoms c8buf = Except.error "invalid atom: extended size extends beyond file" :=
  ⟨⟨by decide, by decide, by decide⟩,
    (c8_first_atom_size_errors c8buf (by decide)).2.2 (by decide) (by decide)⟩

/-! ## Byte-access lemmas for reasoning about encoded buffers -/

/-- Reading past a prefix reads the suffix. -/
theorem readByte_append_right (pre rest : List Nat) (n : Nat) (h : pre.length ≤ n) :
    readByte (pre ++ rest) n = readByte rest (n - pre.length) := by
  simp [readByte, List.getD, List.getElem?_append_right h]

/-- A 32-bit read right after a prefix reads the suffix's first word. -/
theorem be32_append_right (pre rest : List Nat) :
    be32 (pre ++ rest) pre.length = be32 rest 0 := by
  simp only [be32, readByte_append_right pre rest pre.length (by omega),
    readByte_append_right pre rest (pre.length + 1) (by omega),
    readByte_append_right pre rest (pre.length + 2) (by omega),
    readByte_append_right pre rest (pre.length + 3) (by omega)]
  simp [Nat.add_sub_cancel_left, Nat.sub_self]

/-- be32bytes followed by be32 is the identity below 2^32. -/
theorem be32_be32bytes (v : Nat) (rest : List Nat) (h : v < 4294967296) :
    be32 (be32bytes v ++ rest) 0 = v := by
  show 16777216 * (v / 16777216 % 256) + 65536 * (v / 65536 % 256) +
      256 * (v / 256 % 256) + v % 256 = v
  omega

/-- Dropping a prefix plus `k` drops `k` of the suffix. -/
theorem drop_append_add (l1 l2 : List Nat) (k : Nat) :
    (l1 ++ l2).drop (l1.length + k) = l2.drop k := by
  simp [List.drop_append]

/-! ## C9: child recovery behaviour, general form -/

/-- Bytes of a flat (non-container) atom with exact declared size. -/
def encodeFlatAtom (tb body : List Nat) : List Nat :=
  be32bytes (body.length + 8) ++ tb ++ body

/-- Bytes of a sequence of flat atoms. -/
def encodeFlatAtoms (l : List (List Nat × List Nat)) : List Nat :=
  (l.map (fun p => encodeFlatAtom p.1 p.2)).flatten

/-- The Atom the parser builds for a flat atom. -/
def flatAtomOf (p : List Nat × List Nat) : Atom :=
  Atom.mk (p.2.length + 8) p.1 p.2 []

/-- A well-formed flat child: a 4-byte non-container type code and a
size field that fits in 32 bits. -/
def validFlat (p : List Nat × List Nat) : Prop :=
  p.1.length = 4 ∧ isContainerAtom p.1 = false ∧ p.2.length + 8 < 4294967296

/-- Length of one encoded flat atom. -/
theorem encodeFlatAtom_length (tb body : List Nat) (h4 : tb.length = 4) :
    (encodeFlatAtom tb body).length = body.length + 8 := by
  simp [encodeFlatAtom, be32bytes, h4]
  omega

/-- One parser iteration over a flat atom at position `pre.length`. -/
theorem parseChildLoop_flat_cons (fuel : Nat) (pre tb body rest2 : List Nat)
    (h4 : tb.length = 4) (hnc : isContainerAtom tb = false)
    (hsz : body.length + 8 < 4294967296) :
    parseChildLoop (fuel + 1) (pre ++ encodeFlatAtom tb body ++ rest2) pre.length =
      (match parseChildLoop fuel (pre ++ encodeFlatAtom tb body ++ rest2)
          (pre.length + (body.length + 8)) with
      | Except.ok rest => Except.ok (Atom.mk (body.length + 8) tb body [] :: rest)
      | Except.error e => Except.error e) := by
  have hlen : (pre ++ encodeFlatAtom tb body ++ rest2).length =
      pre.length + (body.length + 8) + rest2.length := by
    simp [encodeFlatAtom_length tb body h4]
    omega
  have hread : be32 (pre ++ encodeFlatAtom tb body ++ rest2) pre.length = body.length + 8 := by
    rw [List.append_assoc, be32_append_right]
    simp only [encodeFlatAtom, List.append_assoc]
    exact be32_be32bytes (body.length + 8) (tb ++ (body ++ rest2)) hsz
  have htyp : ((pre ++ encodeFlatAtom tb body ++ rest2).drop (pre.length + 4)).take 4 = tb := by
    have : pre ++ encodeFlatAtom tb body ++ rest2 =
        (pre ++ be32bytes (body.length + 8)) ++ (tb ++ (body ++ rest2)) := by
      simp [encodeFlatAtom, List.append_assoc]
    rw [this]
    have h44 : (pre ++ be32bytes (body.length + 8)).length = pre.length + 4 := by
      simp [be32bytes]
    rw [show pre.length + 4 = (pre ++ be32bytes (body.length + 8)).length + 0 by omega,
      drop_append_add, List.drop_zero]
    exact List.take_left' h4
  have hdat : body.length > 0 →
      ((pre ++ encodeFlatAtom tb body ++ rest2).drop (pre.length + 8)).take
        (body.length + 8 - 8) = body := by
    intro _
    have : pre ++ encodeFlatAtom tb body ++ rest2 =
        (pre ++ be32bytes (body.length + 8) ++ tb) ++ (body ++ rest2) := by
      simp [encodeFlatAtom, List.append_assoc]
    rw [this]
    have h8 : (pre ++ be32bytes (body.length + 8) ++ tb).length = pre.length + 8 := by
      simp [be32bytes, h4]
    rw [show pre.length + 8 = (pre ++ be32bytes (body.length + 8) ++ tb).length + 0 by omega,
      drop_append_add, List.drop_zero]
    simp only [Nat.add_sub_cancel]
    exact List.take_left' rfl
  rw [parseChildLoop_step fuel _ pre.length (by omega) (by omega)
    (by omega) (by omega) (by omega)]
  simp only [hread, htyp, hnc]
  by_cases hb : body.length > 0
  · rw [if_pos (by omega : body.length + 8 > 8), hdat hb]
    simp
  · have hb0 : body = [] := by
      cases body with
      | nil => rfl
      | cons a l => simp at hb
    subst hb0
    rfl

/-- Child parse over a sequence of well-formed flat atoms followed by a
malformed child: an oversized child silently truncates (the earlier
atoms are returned), while an extended-size child aborts the whole
child parse with an error. -/
theorem parseChildLoop_flat_list (goods : List (List Nat × List Nat)) :
    ∀ (pre tail : List Nat) (fuel : Nat),
    (∀ p ∈ goods, validFlat p) →
    goods.length + 1 ≤ fuel →
    8 ≤ tail.length →
    ((2 ≤ be32 tail 0 ∧ tail.length < be32 tail 0) →
      parseChildLoop fuel (pre ++ encodeFlatAtoms goods ++ tail) pre.length =
        Except.ok (goods.map flatAtomOf)) ∧
    (be32 tail 0 = 1 →
      parseChildLoop fuel (pre ++ encodeFlatAtoms goods ++ tail) pre.length =
        Except.error "extended size atoms not yet supported in children") := by
  induction goods with
  | nil =>
    intro pre tail fuel _ hfuel h8
    obtain ⟨f, rfl⟩ : ∃ f, fuel = f + 1 := ⟨fuel - 1, by omega⟩
    simp only [encodeFlatAtoms, List.map_nil, List.flatten_nil, List.append_nil,
      List.map_nil]
    have hbe : be32 (pre ++ tail) pre.length = be32 tail 0 := be32_append_right pre tail
    have hlen : (pre ++ tail).length = pre.length + tail.length := by simp
    constructor
    · rintro ⟨h2, hov⟩
      exact parseChildLoop_oversize f (pre ++ tail) pre.length (by omega) (by omega)
        (by omega) (by omega) (by omega)
    · intro h1
      exact parseChildLoop_ext f (pre ++ tail) pre.length (by omega) (by omega)
        (by omega)
  | cons g goods ih =>
    intro pre tail fuel hval hfuel h8
    obtain ⟨f, rfl⟩ : ∃ f, fuel = f + 1 := ⟨fuel - 1, by omega⟩
    obtain ⟨h4, hnc, hsz⟩ := hval g (by simp)
    have hdata : pre ++ encodeFlatAtoms (g :: goods) ++ tail =
        pre ++ encodeFlatAtom g.1 g.2 ++ (encodeFlatAtoms goods ++ tail) := by
      simp [encodeFlatAtoms, List.append_assoc]
    have hpos : pre.length + (g.2.length + 8) = (pre ++ encodeFlatAtom g.1 g.2).length := by
      simp [encodeFlatAtom_length g.1 g.2 h4]
    have hassoc : pre ++ encodeFlatAtom g.1 g.2 ++ (encodeFlatAtoms goods ++ tail) =
        (pre ++ encodeFlatAtom g.1 g.2) ++ encodeFlatAtoms goods ++ tail := by
      simp [List.append_assoc]
    have ih' := ih (pre ++ encodeFlatAtom g.1 g.2) tail f
      (fun p hp => hval p (by simp [hp])) (by simp at hfuel ⊢; omega) h8
    rw [hdata, parseChildLoop_flat_cons f pre g.1 g.2 (encodeFlatAtoms goods ++ tail)
      h4 hnc hsz, hpos, hassoc]
    constructor
    · intro hA
      rw [ih'.1 hA]
      simp [flatAtomOf]
    · intro hB
      rw [ih'.2 hB]

/-- A file consisting of a single moov atom wrapping `body`. -/
def mkMoovBuf (body : List Nat) : List Nat :=
  be32bytes (body.length + 8) ++ moovT ++ body

/-- Length of `mkMoovBuf`. -/
theorem mkMoovBuf_length (body : List Nat) : (mkMoovBuf body).length = body.length + 8 := by
  simp [mkMoovBuf, be32bytes, moovT]

/-- The declared size read back from `mkMoovBuf`. -/
theorem mkMoovBuf_be32 (body : List Nat) (hsz : body.length + 8 < 4294967296) :
    be32 (mkMoovBuf body) 0 = body.length + 8 := by
  have h : mkMoovBuf body = be32bytes (body.length + 8) ++ (moovT ++ body) := by
    simp [mkMoovBuf, List.append_assoc]
  rw [h]
  exact be32_be32bytes (body.length + 8) (moovT ++ body) hsz

/-- The type slice of `mkMoovBuf` is moov. -/
theorem mkMoovBuf_typ (body : List Nat) :
    ((mkMoovBuf body).drop (0 + 4)).take 4 = moovT := by
  have h : mkMoovBuf body = be32bytes (body.length + 8) ++ (moovT ++ body) := by
    simp [mkMoovBuf, List.append_assoc]
  rw [h, show (0 + 4 : Nat) = (be32bytes (body.length + 8)).length + 0 by
    simp [be32bytes], drop_append_add, List.drop_zero]
  exact List.take_left' rfl

/-- The body slice of `mkMoovBuf`. -/
theorem mkMoovBuf_dat (body : List Nat) :
    ((mkMoovBuf body).drop (0 + 8)).take (body.length + 8 - 8) = body := by
  have h : mkMoovBuf body = (be32bytes (body.length + 8) ++ moovT) ++ body := by
    simp [mkMoovBuf, List.append_assoc]
  rw [h, show (0 + 8 : Nat) = (be32bytes (body.length + 8) ++ moovT).length + 0 by
    simp [be32bytes, moovT], drop_append_add, List.drop_zero]
  simp

/-- Parsing a single-moov file whose child parse succeeds: the moov
atom carries exactly those children. -/
theorem parseMoov_single_ok (body : List Nat) (cs : List Atom) (hlen : 0 < body.length)
    (hsz : body.length + 8 < 4294967296)
    (hchild : parseChildLoop (2 * (body.length + 8) + 15) body 0 = Except.ok cs) :
    ParseMP4Atoms (mkMoovBuf body) =
      Except.ok [Atom.mk (body.length + 8) moovT body cs] := by
  have hdlen := mkMoovBuf_length body
  have hsize := mkMoovBuf_be32 body hsz
  have hfuel : mp4Fuel (mkMoovBuf body) = (2 * (body.length + 8) + 15) + 1 := by
    simp only [mp4Fuel, hdlen]
  rw [ParseMP4Atoms, if_neg (by omega), hfuel,
    parseAtomsLoop_step _ _ _ _ (by omega) (by omega) (by omega) (by omega) (by omega)]
  simp only [hsize, mkMoovBuf_typ, mkMoovBuf_dat]
  rw [if_pos (by omega : body.length + 8 > 8), hchild,
    show (0 + (body.length + 8)) = (mkMoovBuf body).length by omega,
    show (2 * (body.length + 8) + 15) = (2 * (body.length + 8) + 14) + 1 by omega,
    parseAtomsLoop_exit _ _ _ _ (by omega),
    if_pos (⟨rfl, hlen⟩ : isContainerAtom moovT = true ∧ 0 < body.length)]

/-- Parsing a single-moov file whose child parse errors: the moov atom
is still returned, with an empty children list. -/
theorem parseMoov_single_err (body : List Nat) (e : String) (hlen : 0 < body.length)
    (hsz : body.length + 8 < 4294967296)
    (hchild : parseChildLoop (2 * (body.length + 8) + 15) body 0 = Except.error e) :
    ParseMP4Atoms (mkMoovBuf body) =
      Except.ok [Atom.mk (body.length + 8) moovT body []] := by
  have hdlen := mkMoovBuf_length body
  have hsize := mkMoovBuf_be32 body hsz
  have hfuel : mp4Fuel (mkMoovBuf body) = (2 * (body.length + 8) + 15) + 1 := by
    simp only [mp4Fuel, hdlen]
  rw [ParseMP4Atoms, if_neg (by omega), hfuel,
    parseAtomsLoop_step _ _ _ _ (by omega) (by omega) (by omega) (by omega) (by omega)]
  simp only [hsize, mkMoovBuf_typ, mkMoovBuf_dat]
  rw [if_pos (by omega : body.length + 8 > 8), hchild,
    show (0 + (body.length + 8)) = (mkMoovBuf body).length by omega,
    show (2 * (body.length + 8) + 15) = (2 * (body.length + 8) + 14) + 1 by omega,
    parseAtomsLoop_exit _ _ _ _ (by omega),
    if_pos (⟨rfl, hlen⟩ : isContainerAtom moovT = true ∧ 0 < body.length)]

/-- Encoded flat atoms are at least one byte each. -/
theorem length_le_encodeFlatAtoms (goods : List (List Nat × List Nat)) :
    goods.length ≤ (encodeFlatAtoms goods).length := by
  induction goods with
  | nil => simp [encodeFlatAtoms]
  | cons g gs ih =>
    simp only [encodeFlatAtoms, List.map_cons, List.flatten_cons, List.length_append,
      List.length_cons] at ih ⊢
    have : 1 ≤ (encodeFlatAtom g.1 g.2).length := by
      simp [encodeFlatAtom, be32bytes]
    omega

/-- C9 (amended): inside a recognized container, a child whose declared
size exceeds the remaining body silently truncates the children list at
that child — the container and all earlier well-formed children are
returned and the parse succeeds — but a child with the unsupported
extended size 1 makes the child parse error and the container is
returned with an EMPTY children list (the earlier well-formed children
are dropped); the overall parse succeeds in both cases. -/
theorem c9_container_child_recovery (goods : List (List Nat × List Nat))
    (tailA tailB : List Nat) (hval : ∀ p ∈ goods, validFlat p)
    (h8A : 8 ≤ tailA.length) (hA : 2 ≤ be32 tailA 0 ∧ tailA.length < be32 tailA 0)
    (h8B : 8 ≤ tailB.length) (hB : be32 tailB 0 = 1)
    (hszA : (encodeFlatAtoms goods ++ tailA).length + 8 < 4294967296)
    (hszB : (encodeFlatAtoms goods ++ tailB).length + 8 < 4294967296) :
    ParseMP4Atoms (mkMoovBuf (encodeFlatAtoms goods ++ tailA)) =
      Except.ok [Atom.mk ((encodeFlatAtoms goods ++ tailA).length + 8) moovT
        (encodeFlatAtoms goods ++ tailA) (goods.map flatAtomOf)] ∧
    ParseMP4Atoms (mkMoovBuf (encodeFlatAtoms goods ++ tailB)) =
      Except.ok [Atom.mk ((encodeFlatAtoms goods ++ tailB).length + 8) moovT
        (encodeFlatAtoms goods ++ tailB) []] := by
  have hgl := length_le_encodeFlatAtoms goods
  constructor
  · have hchild := (parseChildLoop_flat_list goods [] tailA
      (2 * ((encodeFlatAtoms goods ++ tailA).length + 8) + 15) hval
      (by simp [List.length_append] at hgl ⊢; omega) h8A).1 hA
    simp only [List.nil_append, List.length_nil] at hchild
    exact parseMoov_single_ok (encodeFlatAtoms goods ++ tailA) (goods.map flatAtomOf)
      (by simp [List.length_append]; omega) hszA hchild
  · have hchild := (parseChildLoop_flat_list goods [] tailB
      (2 * ((encodeFlatAtoms goods ++ tailB).length + 8) + 15) hval
      (by simp [List.length_append] at hgl ⊢; omega) h8B).2 hB
    simp only [List.nil_append, List.length_nil] at hchild
    exact parseMoov_single_err (encodeFlatAtoms goods ++ tailB)
      "extended size atoms not yet supported in children"
      (by simp [List.length_append]; omega) hszB hchild

/-- Witness for the amended C9: one well-formed free child followed by
an oversized child (size 99) and by an extended-size child. -/
theorem c9_container_child_recovery_witness :
    ((∀ p ∈ [([102, 114, 101, 101], ([] : List Nat))], validFlat p) ∧
      be32 [0, 0, 0, 99, 97, 98, 99, 100] 0 = 99 ∧
      be32 [0, 0, 0, 1, 97, 98, 99, 100] 0 = 1) ∧
    (ParseMP4Atoms (mkMoovBuf (encodeFlatAtoms [([102, 114, 101, 101], [])] ++
        [0, 0, 0, 99, 97, 98, 99, 100])) =
      Except.ok [Atom.mk ((encodeFlatAtoms [([102, 114, 101, 101], [])] ++
          [0, 0, 0, 99, 97, 98, 99, 100]).length + 8) moovT
        (encodeFlatAtoms [([102, 114, 101, 101], [])] ++ [0, 0, 0, 99, 97, 98, 99, 100])
        ([([102, 114, 101, 101], [])].map flatAtomOf)] ∧
    ParseMP4Atoms (mkMoovBuf (encodeFlatAtoms [([102, 114, 101, 101], [])] ++
        [0, 0, 0, 1, 97, 98, 99, 100])) =
      Except.ok [Atom.mk ((encodeFlatAtoms [([102, 114, 101, 101], [])] ++
          [0, 0, 0, 1, 97, 98, 99, 100]).length + 8) moovT
        (encodeFlatAtoms [([102, 114, 101, 101], [])] ++ [0, 0, 0, 1, 97, 98, 99, 100]) []]) := by
  have hv : ∀ p ∈ [([102, 114, 101, 101], ([] : List Nat))], validFlat p := by
    intro p hp
    simp only [List.mem_singleton] at hp
    subst hp
    exact ⟨rfl, rfl, by decide⟩
  exact ⟨⟨hv, by decide, by decide⟩,
    c9_container_child_recovery [([102, 114, 101, 101], [])]
      [0, 0, 0, 99, 97, 98, 99, 100] [0, 0, 0, 1, 97, 98, 99, 100]
      hv (by decide) (by decide) (by decide) (by decide)
      (by decide) (by decide)⟩

/-! ## C6: parse after reassemble, general form -/

/-- A segment the reassembler can emit and the parser reads back
unchanged: a marker byte outside the fill/stuffing/SOI/EOI/SOF codes,
and a length field consistent with the payload that fits in 16 bits. -/
def validSeg (seg : JPEGSegment) : Prop :=
  seg.Marker < 256 ∧ seg.Marker ≠ 0 ∧ seg.Marker ≠ 255 ∧ seg.Marker ≠ 216 ∧
  seg.Marker ≠ 217 ∧ ¬ (192 ≤ seg.Marker ∧ seg.Marker ≤ 195) ∧
  seg.Length = seg.Payload.length + 2 ∧ seg.Length < 65536

/-- A byte tail at which segment parsing stops: an EOI or SOF marker
pair. -/
def stopTail (T : List Nat) : Prop :=
  ∃ m rest, T = 255 :: m :: rest ∧ (m = 217 ∨ (192 ≤ m ∧ m ≤ 195))

/-- The marker scan does not move when it already points at a marker
pair that is neither a fill byte nor a stuffed zero. -/
theorem scanMarker_stop (data : List Nat) (pos fuel : Nat)
    (h255 : readByte data pos = 255) (hm1 : readByte data (pos + 1) ≠ 255)
    (hm0 : readByte data (pos + 1) ≠ 0) :
    scanMarker data pos fuel = pos := by
  cases fuel with
  | zero => rfl
  | succ f =>
    simp only [scanMarker]
    rw [if_neg]
    rintro ⟨-, h | h | h⟩
    · exact h h255
    · exact hm1 h
    · exact hm0 h

/-- Segment loop: stop on an EOI marker. -/
theorem parseSegLoop_stop_eoi (data : List Nat) (pos fuel : Nat)
    (h : pos < data.length) (hscan : scanMarker data pos data.length = pos)
    (hlt : ¬ pos ≥ data.length - 1) (hm : readByte data (pos + 1) = 217) :
    parseSegLoop data pos (fuel + 1) = Except.ok [] := by
  simp only [parseSegLoop, hscan]
  rw [if_pos h, if_neg hlt, if_pos hm]

/-- Segment loop: stop on a start-of-frame marker. -/
theorem parseSegLoop_stop_sof (data : List Nat) (pos fuel : Nat)
    (h : pos < data.length) (hscan : scanMarker data pos data.length = pos)
    (_hlt : ¬ pos ≥ data.length - 1)
    (hne : readByte data (pos + 1) ≠ 217)
    (hm : 192 ≤ readByte data (pos + 1) ∧ readByte data (pos + 1) ≤ 195) :
    parseSegLoop data pos (fuel + 1) = Except.ok [] := by
  simp only [parseSegLoop, hscan]
  rw [if_pos h, if_neg hne, if_pos hm]
  simp

/-- Segment loop: consume one segment. -/
theorem parseSegLoop_consume (data : List Nat) (pos fuel : Nat)
    (h : pos < data.length) (hscan : scanMarker data pos data.length = pos)
    (hlt : ¬ pos ≥ data.length - 1)
    (hne : readByte data (pos + 1) ≠ 217)
    (hnsof : ¬ (192 ≤ readByte data (pos + 1) ∧ readByte data (pos + 1) ≤ 195))
    (h3 : ¬ pos + 3 ≥ data.length)
    (hl2 : ¬ be16 data (pos + 2) < 2)
    (hfit : ¬ pos + 2 + be16 data (pos + 2) > data.length) :
    parseSegLoop data pos (fuel + 1) =
      (match parseSegLoop data (pos + 2 + be16 data (pos + 2)) fuel with
      | Except.ok segs =>
        Except.ok (⟨readByte data (pos + 1), be16 data (pos + 2),
          (data.drop (pos + 4)).take (be16 data (pos + 2) - 2)⟩ :: segs)
      | Except.error e => Except.error e) := by
  simp only [parseSegLoop, hscan]
  rw [if_pos h, if_neg hlt, if_neg hne, if_neg hnsof, if_neg h3, if_neg hl2, if_neg hfit]

/-- encodeSegs distributes over cons. -/
theorem encodeSegs_cons (s : JPEGSegment) (S : List JPEGSegment) :
    encodeSegs (s :: S) = encodeSeg s ++ encodeSegs S := by
  simp [encodeSegs]

/-- Each encoded segment is at least four bytes. -/
theorem length_le_encodeSegs (S : List JPEGSegment) :
    S.length ≤ (encodeSegs S).length := by
  induction S with
  | nil => simp [encodeSegs]
  | cons s S ih =>
    rw [encodeSegs_cons]
    simp only [List.length_append, List.length_cons]
    have : 4 ≤ (encodeSeg s).length := by
      simp [encodeSeg]
    omega

/-- Parsing encoded valid segments followed by a stop tail returns
exactly those segments, from any starting prefix. -/
theorem parseSegLoop_encode (S : List JPEGSegment) :
    ∀ (pre T : List Nat) (fuel : Nat),
    (∀ s ∈ S, validSeg s) → stopTail T → S.length + 1 ≤ fuel →
    parseSegLoop (pre ++ encodeSegs S ++ T) pre.length fuel = Except.ok S := by
  induction S with
  | nil =>
    intro pre T fuel _ hT hfuel
    obtain ⟨f, rfl⟩ : ∃ f, fuel = f + 1 := ⟨fuel - 1, by omega⟩
    obtain ⟨m, rest, hTeq, hm⟩ := hT
    subst hTeq
    simp only [encodeSegs, List.map_nil, List.flatten_nil, List.append_nil]
    have hlen : (pre ++ 255 :: m :: rest).length = pre.length + 2 + rest.length := by
      simp
      omega
    have h255 : readByte (pre ++ 255 :: m :: rest) pre.length = 255 := by
      rw [readByte_append_right _ _ _ (by omega)]
      simp [readByte]
    have hm1 : readByte (pre ++ 255 :: m :: rest) (pre.length + 1) = m := by
      rw [readByte_append_right _ _ _ (by omega)]
      simp [readByte, Nat.add_sub_cancel_left]
    have hmne255 : m ≠ 255 := by omega
    have hmne0 : m ≠ 0 := by omega
    have hscan := scanMarker_stop (pre ++ 255 :: m :: rest) pre.length
      (pre ++ 255 :: m :: rest).length h255 (by rw [hm1]; exact hmne255)
      (by rw [hm1]; exact hmne0)
    cases hm with
    | inl heoi =>
      exact parseSegLoop_stop_eoi _ _ f (by omega) hscan (by omega)
        (by rw [hm1]; exact heoi)
    | inr hsof =>
      exact parseSegLoop_stop_sof _ _ f (by omega) hscan (by omega)
        (by rw [hm1]; omega) (by rw [hm1]; exact hsof)
  | cons s S ih =>
    intro pre T fuel hval hT hfuel
    obtain ⟨f, rfl⟩ : ∃ f, fuel = f + 1 := ⟨fuel - 1, by omega⟩
    obtain ⟨hlt256, hne0, hne255, hne216, hne217, hnsof, hleneq, hlt65536⟩ :=
      hval s (by simp)
    have hTlen : 2 ≤ T.length := by
      obtain ⟨m, rest, hTeq, -⟩ := hT
      rw [hTeq]
      simp
    have henc : encodeSeg s =
        255 :: s.Marker :: (s.Length / 256) :: (s.Length % 256) :: s.Payload := by
      simp [encodeSeg, Nat.mod_eq_of_lt hlt256, Nat.mod_eq_of_lt hlt65536]
    have hdata : pre ++ encodeSegs (s :: S) ++ T =
        pre ++ 255 :: s.Marker :: (s.Length / 256) :: (s.Length % 256) ::
          (s.Payload ++ (encodeSegs S ++ T)) := by
      rw [encodeSegs_cons, henc]
      simp [List.append_assoc]
    rw [hdata]
    set D := pre ++ 255 :: s.Marker :: (s.Length / 256) :: (s.Length % 256) ::
      (s.Payload ++ (encodeSegs S ++ T)) with hD
    have hDlen : D.length =
        pre.length + 4 + s.Payload.length + (encodeSegs S).length + T.length := by
      rw [hD]
      simp
      omega
    have h255 : readByte D pre.length = 255 := by
      rw [hD, readByte_append_right _ _ _ (by omega)]
      simp [readByte]
    have hM : readByte D (pre.length + 1) = s.Marker := by
      rw [hD, readByte_append_right _ _ _ (by omega)]
      simp [readByte, Nat.add_sub_cancel_left]
    have hl1 : readByte D (pre.length + 2) = s.Length / 256 := by
      rw [hD, readByte_append_right _ _ _ (by omega)]
      simp [readByte, Nat.add_sub_cancel_left]
    have hl2 : readByte D (pre.length + 3) = s.Length % 256 := by
      rw [hD, readByte_append_right _ _ _ (by omega)]
      simp [readByte, Nat.add_sub_cancel_left]
    have hbe : be16 D (pre.length + 2) = s.Length := by
      rw [be16, show pre.length + 2 + 1 = pre.length + 3 by omega, hl1, hl2]
      omega
    have hscan := scanMarker_stop D pre.length D.length h255
      (by rw [hM]; exact hne255) (by rw [hM]; exact hne0)
    rw [parseSegLoop_consume D pre.length f (by omega) hscan (by omega)
      (by rw [hM]; exact hne217) (by rw [hM]; exact hnsof) (by omega)
      (by rw [hbe]; omega) (by rw [hbe]; omega)]
    have hslice : (D.drop (pre.length + 4)).take (be16 D (pre.length + 2) - 2) =
        s.Payload := by
      rw [hbe]
      have hsplit : D = (pre ++ [255, s.Marker, s.Length / 256, s.Length % 256]) ++
          (s.Payload ++ (encodeSegs S ++ T)) := by
        rw [hD]
        simp
      rw [hsplit, show pre.length + 4 =
          (pre ++ [255, s.Marker, s.Length / 256, s.Length % 256]).length + 0 by simp,
        drop_append_add, List.drop_zero, show s.Length - 2 = s.Payload.length by omega]
      exact List.take_left _ _
    have hrec : parseSegLoop D (pre.length + 2 + be16 D (pre.length + 2)) f =
        Except.ok S := by
      rw [hbe]
      have hpre' : D = (pre ++ encodeSeg s) ++ encodeSegs S ++ T := by
        rw [hD, henc]
        simp [List.append_assoc]
      have hpos : pre.length + 2 + s.Length = (pre ++ encodeSeg s).length := by
        rw [henc]
        simp
        omega
      rw [hpre', hpos]
      exact ih (pre ++ encodeSeg s) T f (fun x hx => hval x (by simp [hx])) hT
        (by simp at hfuel ⊢; omega)
    rw [hrec, hslice, hM, hbe]

/-- C6 (amended): for every sequence of valid segments and every image
data that is either empty or begins with a start-of-frame or
end-of-image marker pair, parsing the reassembled file returns exactly
the original segments (parse is a left inverse of reassemble modulo the
EOI-append rule), and the image-data bytes are preserved verbatim right
after the re-emitted segments. -/
theorem c6_parse_reassemble_roundtrip (S : List JPEGSegment) (D : List Nat)
    (hS : ∀ s ∈ S, validSeg s) (hD : D = [] ∨ stopTail D) :
    ParseJPEGSegments (ReassembleJPEG S D) = Except.ok S ∧
    ReassembleJPEG S D = [255, 216] ++ encodeSegs S ++ D ++
      (if endsWithEOI D then [] else [255, 217]) ∧
    ((ReassembleJPEG S D).drop (2 + (encodeSegs S).length)).take D.length = D := by
  set pad := (if endsWithEOI D then ([] : List Nat) else [255, 217]) with hpad
  have hR : ReassembleJPEG S D = [255, 216] ++ encodeSegs S ++ (D ++ pad) := by
    simp [ReassembleJPEG, List.append_assoc]
  have hstop : stopTail (D ++ pad) := by
    cases hD with
    | inl hnil =>
      subst hnil
      rw [hpad]
      exact ⟨217, [], rfl, Or.inl rfl⟩
    | inr hst =>
      obtain ⟨m, rest, hDeq, hm⟩ := hst
      exact ⟨m, rest ++ pad, by rw [hDeq]; simp, hm⟩
  refine ⟨?_, by rw [hR]; simp [List.append_assoc], ?_⟩
  · have hcons : ReassembleJPEG S D = 255 :: 216 :: (encodeSegs S ++ (D ++ pad)) := by
      rw [hR]
      rfl
    have hlen2 : ¬ (ReassembleJPEG S D).length < 2 := by
      rw [hcons]
      simp
    rw [ParseJPEGSegments, if_neg hlen2, if_neg]
    · have hfuel : S.length + 1 ≤ (ReassembleJPEG S D).length := by
        have hb1 := length_le_encodeSegs S
        have hb2 : 2 ≤ D.length + pad.length := by
          obtain ⟨m, rest, heq, -⟩ := hstop
          have := congrArg List.length heq
          simp at this
          omega
        rw [hR]
        simp only [List.length_append]
        omega
      calc parseSegLoop (ReassembleJPEG S D) 2 (ReassembleJPEG S D).length
          = parseSegLoop ([255, 216] ++ encodeSegs S ++ (D ++ pad))
              ([255, 216] : List Nat).length (ReassembleJPEG S D).length := by
            rw [← hR]
            rfl
        _ = Except.ok S := parseSegLoop_encode S [255, 216] (D ++ pad)
              (ReassembleJPEG S D).length hS hstop hfuel
    · rintro (h | h)
      · exact h (by rw [hcons]; rfl)
      · exact h (by rw [hcons]; rfl)
  · have hsplit : ReassembleJPEG S D = ([255, 216] ++ encodeSegs S) ++ (D ++ pad) := hR
    have hlenP : 2 + (encodeSegs S).length =
        ([255, 216] ++ encodeSegs S).length + 0 := by
      simp only [List.length_append, List.length_cons, List.length_nil]
      omega
    rw [hsplit, hlenP, drop_append_add, List.drop_zero]
    exact List.take_left _ _

/-- Witness for the amended C6 with one APP0 segment and SOF-headed
image data. -/
theorem c6_parse_reassemble_roundtrip_witness :
    ((∀ s ∈ [(⟨224, 2, []⟩ : JPEGSegment)], validSeg s) ∧
      stopTail [255, 192, 0, 0]) ∧
    ParseJPEGSegments (ReassembleJPEG [⟨224, 2, []⟩] [255, 192, 0, 0]) =
      Except.ok [⟨224, 2, []⟩] := by
  have hv : ∀ s ∈ [(⟨224, 2, []⟩ : JPEGSegment)], validSeg s := by
    intro s hs
    simp only [List.mem_singleton] at hs
    subst hs
    exact ⟨by decide, by decide, by decide, by decide, by decide, by decide,
      by decide, by decide⟩
  have hst : stopTail [255, 192, 0, 0] := ⟨192, [0, 0], rfl, Or.inr ⟨by decide, by decide⟩⟩
  exact ⟨⟨hv, hst⟩,
    (c6_parse_reassemble_roundtrip [⟨224, 2, []⟩] [255, 192, 0, 0] hv (Or.inr hst)).1⟩

/-! ## C5: idempotence machinery -/

/-- Rescan: stop at a start-of-frame marker. -/
theorem rescanLoop_stop_sof (data : List Nat) (pos fuel : Nat)
    (h : pos < data.length) (h1 : ¬ pos ≥ data.length - 1)
    (h255 : readByte data pos = 255)
    (hm : 192 ≤ readByte data (pos + 1) ∧ readByte data (pos + 1) ≤ 195) :
    rescanLoop data pos (fuel + 1) = some pos := by
  simp only [rescanLoop]
  rw [if_pos h, if_neg h1, if_neg (by rw [h255]; omega), if_pos hm]

/-- Rescan: stop at an end-of-image marker. -/
theorem rescanLoop_stop_eoi (data : List Nat) (pos fuel : Nat)
    (h : pos < data.length) (h1 : ¬ pos ≥ data.length - 1)
    (h255 : readByte data pos = 255)
    (hsof : ¬ (192 ≤ readByte data (pos + 1) ∧ readByte data (pos + 1) ≤ 195))
    (hm : readByte data (pos + 1) = 217) :
    rescanLoop data pos (fuel + 1) = some pos := by
  simp only [rescanLoop]
  rw [if_pos h, if_neg h1, if_neg (by rw [h255]; omega), if_neg hsof, if_pos hm]

/-- Rescan: skip a whole segment using its length field. -/
theorem rescanLoop_skip (data : List Nat) (pos fuel : Nat)
    (h : pos < data.length) (h1 : ¬ pos ≥ data.length - 1)
    (h255 : readByte data pos = 255)
    (hsof : ¬ (192 ≤ readByte data (pos + 1) ∧ readByte data (pos + 1) ≤ 195))
    (hne : readByte data (pos + 1) ≠ 217) (h3 : pos + 3 < data.length) :
    rescanLoop data pos (fuel + 1) =
      rescanLoop data (pos + 2 + be16 data (pos + 2)) fuel := by
  simp only [rescanLoop]
  rw [if_pos h, if_neg h1, if_neg (by rw [h255]; omega), if_neg hsof, if_neg hne,
    if_pos h3]

/-- The rescan over encoded valid segments lands exactly at the stop
marker that follows them. -/
theorem rescanLoop_encode (S : List JPEGSegment) :
    ∀ (pre T : List Nat) (fuel : Nat),
    (∀ s ∈ S, validSeg s) → stopTail T → S.length + 1 ≤ fuel →
    rescanLoop (pre ++ encodeSegs S ++ T) pre.length fuel =
      some (pre.length + (encodeSegs S).length) := by
  induction S with
  | nil =>
    intro pre T fuel _ hT hfuel
    obtain ⟨f, rfl⟩ : ∃ f, fuel = f + 1 := ⟨fuel - 1, by omega⟩
    obtain ⟨m, rest, hTeq, hm⟩ := hT
    subst hTeq
    simp only [encodeSegs, List.map_nil, List.flatten_nil, List.append_nil,
      List.length_nil, Nat.add_zero]
    have hlen : (pre ++ 255 :: m :: rest).length = pre.length + 2 + rest.length := by
      simp
      omega
    have h255 : readByte (pre ++ 255 :: m :: rest) pre.length = 255 := by
      rw [readByte_append_right _ _ _ (by omega)]
      simp [readByte]
    have hm1 : readByte (pre ++ 255 :: m :: rest) (pre.length + 1) = m := by
      rw [readByte_append_right _ _ _ (by omega)]
      simp [readByte, Nat.add_sub_cancel_left]
    cases hm with
    | inl heoi =>
      exact rescanLoop_stop_eoi _ _ f (by omega) (by omega) h255
        (by rw [hm1]; omega) (by rw [hm1]; exact heoi)
    | inr hsof =>
      exact rescanLoop_stop_sof _ _ f (by omega) (by omega) h255
        (by rw [hm1]; exact hsof)
  | cons s S ih =>
    intro pre T fuel hval hT hfuel
    obtain ⟨f, rfl⟩ : ∃ f, fuel = f + 1 := ⟨fuel - 1, by omega⟩
    obtain ⟨hlt256, hne0, hne255, hne216, hne217, hnsof, hleneq, hlt65536⟩ :=
      hval s (by simp)
    have hTlen : 2 ≤ T.length := by
      obtain ⟨m, rest, hTeq, -⟩ := hT
      rw [hTeq]
      simp
    have henc : encodeSeg s =
        255 :: s.Marker :: (s.Length / 256) :: (s.Length % 256) :: s.Payload := by
      simp [encodeSeg, Nat.mod_eq_of_lt hlt256, Nat.mod_eq_of_lt hlt65536]
    have hdata : pre ++ encodeSegs (s :: S) ++ T =
        pre ++ 255 :: s.Marker :: (s.Length / 256) :: (s.Length % 256) ::
          (s.Payload ++ (encodeSegs S ++ T)) := by
      rw [encodeSegs_cons, henc]
      simp [List.append_assoc]
    rw [hdata]
    set D := pre ++ 255 :: s.Marker :: (s.Length / 256) :: (s.Length % 256) ::
      (s.Payload ++ (encodeSegs S ++ T)) with hD
    have hDlen : D.length =
        pre.length + 4 + s.Payload.length + (encodeSegs S).length + T.length := by
      rw [hD]
      simp
      omega
    have h255 : readByte D pre.length = 255 := by
      rw [hD, readByte_append_right _ _ _ (by omega)]
      simp [readByte]
    have hM : readByte D (pre.length + 1) = s.Marker := by
      rw [hD, readByte_append_right _ _ _ (by omega)]
      simp [readByte, Nat.add_sub_cancel_left]
    have hl1 : readByte D (pre.length + 2) = s.Length / 256 := by
      rw [hD, readByte_append_right _ _ _ (by omega)]
      simp [readByte, Nat.add_sub_cancel_left]
    have hl2 : readByte D (pre.length + 3) = s.Length % 256 := by
      rw [hD, readByte_append_right _ _ _ (by omega)]
      simp [readByte, Nat.add_sub_cancel_left]
    have hbe : be16 D (pre.length + 2) = s.Length := by
      rw [be16, show pre.length + 2 + 1 = pre.length + 3 by omega, hl1, hl2]
      omega
    rw [rescanLoop_skip D pre.length f (by omega) (by omega) h255
      (by rw [hM]; exact hnsof) (by rw [hM]; exact hne217) (by omega)]
    have hpre' : D = (pre ++ encodeSeg s) ++ encodeSegs S ++ T := by
      rw [hD, henc]
      simp [List.append_assoc]
    have hpos : pre.length + 2 + be16 D (pre.length + 2) =
        (pre ++ encodeSeg s).length := by
      rw [hbe, henc]
      simp
      omega
    rw [hpos, hpre', ih (pre ++ encodeSeg s) T f (fun x hx => hval x (by simp [hx])) hT
      (by simp at hfuel ⊢; omega)]
    congr 1
    rw [encodeSegs_cons]
    simp
    omega

/-- Parsing a canonical JPEG buffer (SOI, encoded valid segments, stop
tail) returns exactly those segments. -/
theorem parseJPEG_encoded (S : List JPEGSegment) (T : List Nat)
    (hS : ∀ s ∈ S, validSeg s) (hT : stopTail T) :
    ParseJPEGSegments ([255, 216] ++ encodeSegs S ++ T) = Except.ok S := by
  have hcons : [255, 216] ++ encodeSegs S ++ T =
      255 :: 216 :: (encodeSegs S ++ T) := by
    simp
  have hTlen : 2 ≤ T.length := by
    obtain ⟨m, rest, hTeq, -⟩ := hT
    rw [hTeq]
    simp
  have hlen2 : ¬ ([255, 216] ++ encodeSegs S ++ T).length < 2 := by
    simp
  rw [ParseJPEGSegments, if_neg hlen2, if_neg]
  · have hfuel : S.length + 1 ≤ ([255, 216] ++ encodeSegs S ++ T).length := by
      have hb1 := length_le_encodeSegs S
      simp only [List.length_append, List.length_cons, List.length_nil]
      omega
    exact parseSegLoop_encode S [255, 216] T ([255, 216] ++ encodeSegs S ++ T).length
      hS hT hfuel
  · rintro (h | h)
    · exact h (by rw [hcons]; rfl)
    · exact h (by rw [hcons]; rfl)

/-- One call of InsertEXIFSegment on a canonical buffer: the segment
list is edited and everything from the stop marker onward passes
through as image data. -/
theorem insertEXIF_on_encoded (S : List JPEGSegment) (T p : List Nat)
    (hS : ∀ s ∈ S, validSeg s) (hT : stopTail T) :
    InsertEXIFSegment ([255, 216] ++ encodeSegs S ++ T) p =
      Except.ok (ReassembleJPEG (insertAPP1 S ⟨225, (p.length + 2) % 65536, p⟩) T) := by
  have hparse := parseJPEG_encoded S T hS hT
  have hfuel : S.length + 1 ≤ ([255, 216] ++ encodeSegs S ++ T).length + 1 := by
    have hb1 := length_le_encodeSegs S
    simp only [List.length_append, List.length_cons, List.length_nil]
    omega
  have hrescan : rescanLoop ([255, 216] ++ encodeSegs S ++ T) 2
      (([255, 216] ++ encodeSegs S ++ T).length + 1) =
      some (2 + (encodeSegs S).length) := by
    have h := rescanLoop_encode S [255, 216] T
      (([255, 216] ++ encodeSegs S ++ T).length + 1) hS hT hfuel
    simpa using h
  have hdrop : ([255, 216] ++ encodeSegs S ++ T).drop (2 + (encodeSegs S).length) = T := by
    have hsplit : [255, 216] ++ encodeSegs S ++ T =
        ([255, 216] ++ encodeSegs S) ++ T := rfl
    have hlenP : 2 + (encodeSegs S).length =
        ([255, 216] ++ encodeSegs S).length + 0 := by
      simp only [List.length_append, List.length_cons, List.length_nil]
      omega
    rw [hsplit, hlenP, drop_append_add, List.drop_zero]
  simp only [InsertEXIFSegment, hparse, hrescan, Option.getD_some, hdrop]

/-- When the APP1 search fails, no segment matches. -/
theorem findAPP1_none (S : List JPEGSegment) (h : FindAPP1Segment S = none) :
    ∀ s ∈ S, isEXIFSeg s = false := by
  induction S with
  | nil => intro s hs; simp at hs
  | cons a S ih =>
    intro s hs
    by_cases ha : isEXIFSeg a
    · simp [FindAPP1Segment, ha] at h
    · simp only [FindAPP1Segment, if_neg ha] at h
      rcases List.mem_cons.mp hs with rfl | hs'
      · simpa using ha
      · cases hfind : FindAPP1Segment S with
        | none => exact ih hfind s hs'
        | some v =>
          obtain ⟨i, t⟩ := v
          rw [hfind] at h
          simp at h

/-- A successful APP1 search splits the list: an EXIF-free prefix of
the reported length, then the reported segment, which matches. -/
theorem findAPP1_split (S : List JPEGSegment) :
    ∀ (i : Nat) (s : JPEGSegment), FindAPP1Segment S = some (i, s) →
    isEXIFSeg s = true ∧
    ∃ A B, S = A ++ s :: B ∧ A.length = i ∧ ∀ a ∈ A, isEXIFSeg a = false := by
  induction S with
  | nil => intro i s h; simp [FindAPP1Segment] at h
  | cons a S ih =>
    intro i s h
    by_cases ha : isEXIFSeg a
    · simp only [FindAPP1Segment, if_pos ha, Option.some.injEq, Prod.mk.injEq] at h
      obtain ⟨hi, hs⟩ := h
      subst hs
      subst hi
      exact ⟨ha, [], S, rfl, rfl, by intro x hx; simp at hx⟩
    · simp only [FindAPP1Segment, if_neg ha] at h
      cases hfind : FindAPP1Segment S with
      | none => rw [hfind] at h; simp at h
      | some v =>
        obtain ⟨j, t⟩ := v
        rw [hfind] at h
        simp only [Option.some.injEq, Prod.mk.injEq] at h
        obtain ⟨hi, hs⟩ := h
        rw [hs] at hfind
        subst hi
        obtain ⟨hex, A, B, hSeq, hAlen, hAfree⟩ := ih j s hfind
        refine ⟨hex, a :: A, B, by rw [hSeq]; rfl, by simp [hAlen], ?_⟩
        intro x hx
        rcases List.mem_cons.mp hx with rfl | hx'
        · simpa using ha
        · exact hAfree x hx'

/-- An EXIF-free prefix followed by an EXIF segment is found at exactly
that position. -/
theorem findAPP1_of_split (A : List JPEGSegment) :
    ∀ (B : List JPEGSegment) (new : JPEGSegment),
    isEXIFSeg new = true → (∀ a ∈ A, isEXIFSeg a = false) →
    FindAPP1Segment (A ++ new :: B) = some (A.length, new) := by
  induction A with
  | nil =>
    intro B new hnew _
    simp [FindAPP1Segment, hnew]
  | cons a A ih =>
    intro B new hnew hfree
    have ha : ¬ isEXIFSeg a = true := by
      simp [hfree a (by simp)]
    have hrec := ih B new hnew (fun x hx => hfree x (List.mem_cons_of_mem a hx))
    simp only [List.cons_append, FindAPP1Segment, if_neg ha, List.append_eq]
    rw [hrec]
    simp

/-- Appending an EOI marker pair makes the suffix check succeed. -/
theorem endsWithEOI_append_eoi (x : List Nat) : endsWithEOI (x ++ [255, 217]) = true := by
  simp only [endsWithEOI, List.length_append, List.length_cons, List.length_nil]
  rw [show x.length + (0 + 1 + 1) - 2 = x.length by omega, List.drop_left]
  rfl

/-- After the reassembler's EOI padding, the data always ends with
EOI. -/
theorem endsWithEOI_pad (D : List Nat) :
    endsWithEOI (D ++ (if endsWithEOI D then [] else [255, 217])) = true := by
  by_cases h : endsWithEOI D
  · simp [h]
  · simp only [h, if_neg]
    simp only [Bool.false_eq_true, if_false]
    exact endsWithEOI_append_eoi D

/-- Reassembling with already-padded image data appends nothing new. -/
theorem reassemble_pad (S : List JPEGSegment) (D : List Nat) :
    ReassembleJPEG S (D ++ (if endsWithEOI D then [] else [255, 217])) =
      ReassembleJPEG S D := by
  simp only [ReassembleJPEG, endsWithEOI_pad D, if_pos, List.append_nil]
  simp [List.append_assoc]

/-- The reassembled buffer in prefix/segments/tail form. -/
theorem reassemble_form (S : List JPEGSegment) (D : List Nat) :
    ReassembleJPEG S D = [255, 216] ++ encodeSegs S ++
      (D ++ (if endsWithEOI D then [] else [255, 217])) := by
  simp [ReassembleJPEG, List.append_assoc]

/-- A stop tail stays a stop tail after padding. -/
theorem stopTail_pad (D : List Nat) (h : stopTail D) :
    stopTail (D ++ (if endsWithEOI D then [] else [255, 217])) := by
  obtain ⟨m, rest, hDeq, hm⟩ := h
  exact ⟨m, rest ++ (if endsWithEOI D then [] else [255, 217]), by rw [hDeq]; simp, hm⟩

/-- Setting at the junction of an append replaces the head of the
second part. -/
theorem set_len_append (A B : List JPEGSegment) (s new : JPEGSegment) :
    (A ++ s :: B).set A.length new = A ++ new :: B := by
  simp [List.set_append]

/-- C5 (amended): for every well-formed JPEG — SOI, a sequence of valid
segments containing at most one EXIF APP1 segment, then image data
beginning with a SOF or EOI marker — and every payload p that begins
with the 6-byte EXIF identifier and fits a 16-bit length field,
insertOrReplaceEXIF replaces the first EXIF APP1 segment in place (or
prepends one when none exists), a second application with the same p
returns the first call's output byte-for-byte, that output parses to
the edited segment list (order of the other segments preserved), and it
contains exactly one EXIF APP1 segment. -/
theorem c5_insert_idempotent (S : List JPEGSegment) (D p : List Nat)
    (hS : ∀ s ∈ S, validSeg s)
    (hone : (S.filter (fun s => isEXIFSeg s)).length ≤ 1)
    (hD : stopTail D)
    (hp6 : p.take 6 = exifHeader) (hplen : p.length + 2 < 65536) :
    ∃ S' : List JPEGSegment,
      (match FindAPP1Segment S with
        | some (i, _) => S' = S.set i ⟨225, p.length + 2, p⟩
        | none => S' = ⟨225, p.length + 2, p⟩ :: S) ∧
      InsertEXIFSegment ([255, 216] ++ encodeSegs S ++ D) p =
        Except.ok (ReassembleJPEG S' D) ∧
      InsertEXIFSegment (ReassembleJPEG S' D) p = Except.ok (ReassembleJPEG S' D) ∧
      ParseJPEGSegments (ReassembleJPEG S' D) = Except.ok S' ∧
      (S'.filter (fun s => isEXIFSeg s)).length = 1 := by
  have hmod : (p.length + 2) % 65536 = p.length + 2 := Nat.mod_eq_of_lt hplen
  have hplen6 : 6 ≤ p.length := by
    have := congrArg List.length hp6
    simp only [List.length_take, exifHeader, List.length_cons, List.length_nil] at this
    omega
  have hnewexif : isEXIFSeg ⟨225, p.length + 2, p⟩ = true := by
    simp [isEXIFSeg, hp6, hplen6]
  have hnewvalid : validSeg ⟨225, p.length + 2, p⟩ :=
    ⟨show (225 : Nat) < 256 by decide, show (225 : Nat) ≠ 0 by decide,
      show (225 : Nat) ≠ 255 by decide, show (225 : Nat) ≠ 216 by decide,
      show (225 : Nat) ≠ 217 by decide,
      show ¬ (192 ≤ (225 : Nat) ∧ (225 : Nat) ≤ 195) by decide, rfl, hplen⟩
  have hcall1 := insertEXIF_on_encoded S D p hS hD
  rw [hmod] at hcall1
  have hpadT := stopTail_pad D hD
  cases hfind : FindAPP1Segment S with
  | none =>
    have hSfree := findAPP1_none S hfind
    have hS' : ∀ s ∈ (⟨225, p.length + 2, p⟩ : JPEGSegment) :: S, validSeg s := by
      intro s hs
      rcases List.mem_cons.mp hs with rfl | hs'
      · exact hnewvalid
      · exact hS s hs'
    have hfind' : FindAPP1Segment ((⟨225, p.length + 2, p⟩ : JPEGSegment) :: S) =
        some (0, ⟨225, p.length + 2, p⟩) := by
      simpa using findAPP1_of_split [] S ⟨225, p.length + 2, p⟩ hnewexif
        (by intro x hx; simp at hx)
    have hins1 : insertAPP1 S ⟨225, p.length + 2, p⟩ =
        (⟨225, p.length + 2, p⟩ : JPEGSegment) :: S := by
      simp [insertAPP1, hfind]
    have hins2 : insertAPP1 ((⟨225, p.length + 2, p⟩ : JPEGSegment) :: S)
        ⟨225, p.length + 2, p⟩ = (⟨225, p.length + 2, p⟩ : JPEGSegment) :: S := by
      simp [insertAPP1, hfind']
    refine ⟨(⟨225, p.length + 2, p⟩ : JPEGSegment) :: S, rfl, ?_, ?_, ?_, ?_⟩
    · rw [hcall1, hins1]
    · have hcall2 := insertEXIF_on_encoded ((⟨225, p.length + 2, p⟩ : JPEGSegment) :: S)
        (D ++ (if endsWithEOI D then [] else [255, 217])) p hS' hpadT
      rw [hmod, hins2, reassemble_pad] at hcall2
      rw [reassemble_form] at hcall2 ⊢
      exact hcall2
    · rw [reassemble_form]
      exact parseJPEG_encoded _ _ hS' hpadT
    · have hfilS : S.filter (fun s => isEXIFSeg s) = [] := by
        rw [List.filter_eq_nil_iff]
        intro a ha
        simp [hSfree a ha]
      simp [List.filter_cons, hnewexif, hfilS]
  | some v =>
    obtain ⟨i, old⟩ := v
    obtain ⟨holdexif, A, B, hSeq, hAlen, hAfree⟩ := findAPP1_split S i old hfind
    have hS' : ∀ s ∈ A ++ (⟨225, p.length + 2, p⟩ : JPEGSegment) :: B, validSeg s := by
      intro s hs
      rcases List.mem_append.mp hs with hs' | hs'
      · exact hS s (by rw [hSeq]; exact List.mem_append.mpr (Or.inl hs'))
      · rcases List.mem_cons.mp hs' with rfl | hs''
        · exact hnewvalid
        · exact hS s (by rw [hSeq]; exact List.mem_append.mpr (Or.inr (List.mem_cons_of_mem _ hs'')))
    have hset : S.set i ⟨225, p.length + 2, p⟩ =
        A ++ (⟨225, p.length + 2, p⟩ : JPEGSegment) :: B := by
      rw [hSeq, ← hAlen, set_len_append]
    have hfind' : FindAPP1Segment (A ++ (⟨225, p.length + 2, p⟩ : JPEGSegment) :: B) =
        some (A.length, ⟨225, p.length + 2, p⟩) :=
      findAPP1_of_split A B ⟨225, p.length + 2, p⟩ hnewexif hAfree
    have hins1 : insertAPP1 S ⟨225, p.length + 2, p⟩ =
        A ++ (⟨225, p.length + 2, p⟩ : JPEGSegment) :: B := by
      simp only [insertAPP1, hfind]
      exact hset
    have hins2 : insertAPP1 (A ++ (⟨225, p.length + 2, p⟩ : JPEGSegment) :: B)
        ⟨225, p.length + 2, p⟩ = A ++ (⟨225, p.length + 2, p⟩ : JPEGSegment) :: B := by
      simp only [insertAPP1, hfind']
      exact set_len_append A B _ _
    refine ⟨A ++ (⟨225, p.length + 2, p⟩ : JPEGSegment) :: B, hset.symm, ?_, ?_, ?_, ?_⟩
    · rw [hcall1, hins1]
    · have hcall2 := insertEXIF_on_encoded
        (A ++ (⟨225, p.length + 2, p⟩ : JPEGSegment) :: B)
        (D ++ (if endsWithEOI D then [] else [255, 217])) p hS' hpadT
      rw [hmod, hins2, reassemble_pad] at hcall2
      rw [reassemble_form] at hcall2 ⊢
      exact hcall2
    · rw [reassemble_form]
      exact parseJPEG_encoded _ _ hS' hpadT
    · have hfilA : A.filter (fun s => isEXIFSeg s) = [] := by
        rw [List.filter_eq_nil_iff]
        intro a ha
        simp [hAfree a ha]
      have hfilB : B.filter (fun s => isEXIFSeg s) = [] := by
        rw [hSeq] at hone
        simp only [List.filter_append, List.filter_cons, holdexif, if_pos, hfilA,
          List.nil_append, List.length_cons] at hone
        have : (B.filter (fun s => isEXIFSeg s)).length = 0 := by omega
        exact List.length_eq_zero.mp this
      simp [List.filter_append, List.filter_cons, hnewexif, hfilA, hfilB]

/-- Witness for the amended C5 on a one-segment JPEG with an
EXIF-identified payload. -/
theorem c5_insert_idempotent_witness :
    ((∀ s ∈ [(⟨224, 2, []⟩ : JPEGSegment)], validSeg s) ∧
      ([(⟨224, 2, []⟩ : JPEGSegment)].filter (fun s => isEXIFSeg s)).length ≤ 1 ∧
      stopTail [255, 192, 0, 0] ∧
      exifHeader.take 6 = exifHeader ∧ exifHeader.length + 2 < 65536) ∧
    (∃ S' : List JPEGSegment,
      (match FindAPP1Segment [(⟨224, 2, []⟩ : JPEGSegment)] with
        | some (i, _) => S' = [(⟨224, 2, []⟩ : JPEGSegment)].set i
            ⟨225, exifHeader.length + 2, exifHeader⟩
        | none => S' = ⟨225, exifHeader.length + 2, exifHeader⟩ ::
            [(⟨224, 2, []⟩ : JPEGSegment)]) ∧
      InsertEXIFSegment ([255, 216] ++ encodeSegs [(⟨224, 2, []⟩ : JPEGSegment)] ++
          [255, 192, 0, 0]) exifHeader =
        Except.ok (ReassembleJPEG S' [255, 192, 0, 0]) ∧
      InsertEXIFSegment (ReassembleJPEG S' [255, 192, 0, 0]) exifHeader =
        Except.ok (ReassembleJPEG S' [255, 192, 0, 0]) ∧
      ParseJPEGSegments (ReassembleJPEG S' [255, 192, 0, 0]) = Except.ok S' ∧
      (S'.filter (fun s => isEXIFSeg s)).length = 1) := by
  have hv : ∀ s ∈ [(⟨224, 2, []⟩ : JPEGSegment)], validSeg s := by
    intro s hs
    simp only [List.mem_singleton] at hs
    subst hs
    exact ⟨by decide, by decide, by decide, by decide, by decide, by decide,
      by decide, by decide⟩
  have hst : stopTail [255, 192, 0, 0] :=
    ⟨192, [0, 0], rfl, Or.inr ⟨by decide, by decide⟩⟩
  exact ⟨⟨hv, by decide, hst, by decide, by decide⟩,
    c5_insert_idempotent [(⟨224, 2, []⟩ : JPEGSegment)] [255, 192, 0, 0] exifHeader
      hv (by decide) hst (by decide) (by decide)⟩
